import Mathlib

/-!
# Kalbi SIP transaction layer

A shallow embedding of `sip/transaction/client.go` and
`internal/kalbi/sip/transaction/transaction.go`, together with the part of the
`github.com/looplab/fsm` library that both files drive (`NewFSM`, `Event`,
`Current`), followed by theorems about the embedded code.
-/

namespace Kalbi

/-! ## The state-machine library (`github.com/looplab/fsm`) -/

namespace fsm

/-- Kinds of callback the library distinguishes (`callbackBeforeEvent`,
`callbackLeaveState`, `callbackEnterState`, `callbackAfterEvent`).  The library's
`callbackNone` is the `none` answer of `callbackKey`. -/
inductive CallbackType
  | beforeEvent
  | leaveState
  | enterState
  | afterEvent
  deriving DecidableEq, Repr

/-- One row of `fsm.Events`: `{Name: ..., Src: []string{...}, Dst: ...}`. -/
structure EventDesc where
  Name : String
  Src : List String
  Dst : String
  deriving DecidableEq, Repr

/-- The library's `FSM` value: the current state, the `transitions` map from
`eKey{event, src}` to the destination, and the `callbacks` map from
`cKey{target, callbackType}` to the callback.  Maps are association lists with
unique keys; `κ` is the type of callbacks. -/
structure FSM (κ : Type) where
  current : String
  transitions : List ((String × String) × String)
  callbacks : List ((String × CallbackType) × κ)
  deriving Repr

/-- Go map assignment `m[k] = v`: an existing entry for `k` is replaced. -/
def mapSet {α β : Type} [BEq α] (m : List (α × β)) (k : α) (v : β) : List (α × β) :=
  m.filter (fun p => !(p.1 == k)) ++ [(k, v)]

/-- Go `strings.HasPrefix(name, p)` followed by `strings.TrimPrefix(name, p)`:
the rest of `name` after `p` when `name` starts with `p`. -/
def trimLead (p name : String) : Option String :=
  if p.data.isPrefixOf name.data then some (String.mk (name.data.drop p.data.length)) else none

/-- The `transitions` map `NewFSM` builds: for each event and each of its
sources, `transitions[eKey{e.Name, src}] = e.Dst`. -/
def buildTransitions (events : List EventDesc) : List ((String × String) × String) :=
  events.foldl (fun m e => e.Src.foldl (fun m src => mapSet m (e.Name, src) e.Dst) m) []

/-- The set `allEvents` of `NewFSM`: every event name. -/
def allEvents (events : List EventDesc) : List String :=
  events.map (fun e => e.Name)

/-- The set `allStates` of `NewFSM`: every source and, for an event with at
least one source, its destination. -/
def allStates (events : List EventDesc) : List String :=
  events.foldl (fun acc e => e.Src.foldl (fun acc src => acc ++ [src, e.Dst]) acc) []

/-- The `switch` of `NewFSM` that maps a callback name to its `cKey`: the
prefixes `before_`, `leave_`, `enter_`, `after_` select the kind, a bare name is
an enter-state callback when it names a state and an after-event callback when
it names an event.  `none` is `callbackNone`: the callback is not stored. -/
def callbackKey (states events : List String) (name : String) :
    Option (String × CallbackType) :=
  match trimLead "before_" name with
  | some target =>
    if target = "event" then some ("", .beforeEvent)
    else if events.contains target then some (target, .beforeEvent) else none
  | none =>
  match trimLead "leave_" name with
  | some target =>
    if target = "state" then some ("", .leaveState)
    else if states.contains target then some (target, .leaveState) else none
  | none =>
  match trimLead "enter_" name with
  | some target =>
    if target = "state" then some ("", .enterState)
    else if states.contains target then some (target, .enterState) else none
  | none =>
  match trimLead "after_" name with
  | some target =>
    if target = "event" then some ("", .afterEvent)
    else if events.contains target then some (target, .afterEvent) else none
  | none =>
    if states.contains name then some (name, .enterState)
    else if events.contains name then some (name, .afterEvent) else none

/-- The `callbacks` map `NewFSM` builds from `fsm.Callbacks`.  The entries are
taken in the order listed; Go leaves the order open, which matters only when
two names map to the same key, and no literal of this program has such names. -/
def buildCallbacks {κ : Type} (events : List EventDesc) (callbacks : List (String × κ)) :
    List ((String × CallbackType) × κ) :=
  callbacks.foldl
    (fun m c =>
      match callbackKey (allStates events) (allEvents events) c.1 with
      | some key => mapSet m key c.2
      | none => m)
    []

/-- Go `fsm.NewFSM(initial, events, callbacks)`. -/
def NewFSM {κ : Type} (initial : String) (events : List EventDesc)
    (callbacks : List (String × κ)) : FSM κ :=
  { current := initial
    transitions := buildTransitions events
    callbacks := buildCallbacks events callbacks }

/-- Go `f.Current()`. -/
def FSM.Current {κ : Type} (f : FSM κ) : String := f.current

/-- The errors `Event` can return when no callback cancels or defers a
transition. -/
inductive EventError
  | invalidEvent (event state : String)
  | unknownEvent (event : String)
  | noTransition
  deriving DecidableEq, Repr

/-- What one call of `Event` does: the callbacks it invokes before the state
changes, the machine afterwards, the callbacks it invokes after the state has
changed, and the error it returns. -/
structure Outcome (κ : Type) where
  pre : List κ
  fsm : FSM κ
  post : List κ
  err : Option EventError

/-- The callback stored under `cKey{target, kind}`, if any. -/
def FSM.callback {κ : Type} (f : FSM κ) (target : String) (kind : CallbackType) : List κ :=
  (f.callbacks.lookup (target, kind)).toList

/-- Go `f.Event(event)` for a machine that is not in the middle of a
transition.  No destination for `eKey{event, current}`: `InvalidEventError` when
the event exists for another source, `UnknownEventError` otherwise, and nothing
changes.  Otherwise the before-event callbacks run; when the destination is the
current state the after-event callbacks run and `NoTransitionError` is returned;
else the leave-state callbacks run, `current` becomes the destination, and the
enter-state and after-event callbacks run.  Each group is the callback of the
specific target followed by the general one (target `""`). -/
def FSM.Event {κ : Type} (f : FSM κ) (event : String) : Outcome κ :=
  match f.transitions.lookup (event, f.current) with
  | none =>
    if f.transitions.any (fun p => p.1.1 == event) then
      { pre := [], fsm := f, post := [], err := some (.invalidEvent event f.current) }
    else
      { pre := [], fsm := f, post := [], err := some (.unknownEvent event) }
  | some dst =>
    let before := f.callback event .beforeEvent ++ f.callback "" .beforeEvent
    let after := f.callback event .afterEvent ++ f.callback "" .afterEvent
    if f.current = dst then
      { pre := before, fsm := f, post := after, err := some .noTransition }
    else
      { pre := before ++ (f.callback f.current .leaveState ++ f.callback "" .leaveState)
        fsm := { f with current := dst }
        post := (f.callback dst .enterState ++ f.callback "" .enterState) ++ after
        err := none }

end fsm

/-! ## `sip/transaction/client.go` -/

def clientInputRequest : String := "client_input_request"
def clientInput1xx : String := "client_input_1xx"
def clientInput2xx : String := "client_input_2xx"
def clientInput300Plus : String := "client_input_300_plus"
def clientInputTimerA : String := "client_input_timer_a"
def clientInputTimerB : String := "client_input_timer_b"
def clientInputTimerD : String := "client_input_timer_d"
def clientInputTransportErr : String := "client_input_transport_err"
def clientInputDelete : String := "client_input_transport_err"

/-- The methods of `ClientTransaction` that `InitFSM` and the rest of the file
hand to the state machine or call as actions. -/
inductive Action
  | actSend
  | act300
  | actTransErr
  | actDelete
  | actResend
  deriving DecidableEq, Repr

/-- The `fsm.Events` literal of the `method.INVITE` case of `InitFSM`. -/
def inviteEvents : List fsm.EventDesc :=
  [ { Name := clientInputRequest, Src := [""], Dst := "Calling" },
    { Name := clientInput1xx, Src := ["Calling"], Dst := "Proceeding" },
    { Name := clientInput300Plus, Src := ["Proceeding"], Dst := "Completed" },
    { Name := clientInput2xx, Src := ["Proceeding"], Dst := "Terminated" },
    { Name := clientInputTransportErr, Src := ["Calling", "Proceeding", "Completed"],
      Dst := "Terminated" } ]

/-- The `fsm.Callbacks` literal of the `method.INVITE` case of `InitFSM`. -/
def inviteCallbacks : List (String × Action) :=
  [ (clientInput2xx, .actDelete),
    (clientInput300Plus, .act300),
    (clientInputTimerA, .actResend),
    (clientInputTimerB, .actTransErr) ]

/-- The `fsm.Events` literal of the `default` case of `InitFSM`. -/
def defaultEvents : List fsm.EventDesc :=
  [ { Name := clientInputRequest, Src := [""], Dst := "Calling" },
    { Name := clientInput1xx, Src := ["Calling"], Dst := "Proceeding" },
    { Name := clientInput300Plus, Src := ["Proceeding"], Dst := "Completed" },
    { Name := clientInput2xx, Src := ["Proceeding"], Dst := "Terminated" } ]

/-- Modelled from the spec: the constant `method.INVITE` (declared in the
method package, outside these files), the name of the INVITE method. -/
def methodINVITE : String := "INVITE"

/-- The machine `InitFSM` builds for a request of the given method: the
`switch string(msg.Req.Method)` with its two `fsm.NewFSM` calls. -/
def initMachine (method : String) : fsm.FSM Action :=
  if method = methodINVITE then fsm.NewFSM "" inviteEvents inviteCallbacks
  else fsm.NewFSM "" defaultEvents []

/-- The parts of a parsed SIP message (`message.SipMsg`, `siprocket.SipMsg`) the
transaction layer reads: `string(msg.Req.Method)`, `msg.GetStatusCode()`, the
branch of each `Via` entry, `msg.Contact.Host`, `msg.Contact.Port`, `msg.Sdp`. -/
structure SipMsg where
  Method : String
  StatusCode : Int
  Via : List String
  ContactHost : String
  ContactPort : String
  Sdp : String
  deriving DecidableEq, Repr

/-- Bytes handed to the transport, named by the call of the message package
that produces them: `m.Export()` and `message.NewResponse(code, req)`. -/
inductive Payload
  | exported (m : SipMsg)
  | response (code : Nat) (req : SipMsg)
  deriving DecidableEq, Repr

/-- Calls a transaction makes on its collaborators, in the order made:
`ListeningPoint.Send`, `transport.UdpSend`, `TransManager.DeleteTransaction`,
`sdp.HandleSdp`, the three levels of `log.Log`, and the invocation of a callback
of a state machine whose callbacks are built outside these files. -/
inductive Effect
  | send (host port : String) (payload : Payload)
  | udpSend (host port : String) (payload : Payload)
  | deleteTransaction (branch : String)
  | handleSdp (sdp : String)
  | logDebug (text : String)
  | logInfo (text : String)
  | logError (text : String)
  | callback (label : String)
  deriving DecidableEq, Repr

/-- A `*time.Timer` made by `time.AfterFunc(d, f)`: the duration `d` in
nanoseconds it was last armed with, the event its function `f` delivers to the
state machine, and whether it is still waiting to fire. -/
structure Timer where
  delay : Int
  event : String
  pending : Bool
  deriving DecidableEq, Repr

/-- Go `struct ClientTransaction`.  Pointers that may be nil are options;
`ServerTx` is the ID of the paired server transaction, `ListeningPoint` the
handle of the listening point.  `trace` is not a Go field: it lists the calls
made so far on the collaborators (the manager behind `TransManager` among
them). -/
structure ClientTransaction where
  ID : String
  BranchID : String
  ServerTx : Option String
  Origin : Option SipMsg
  FSM : Option (fsm.FSM Action)
  msgHistory : List SipMsg
  ListeningPoint : Option Nat
  Host : String
  Port : String
  LastMessage : Option SipMsg
  timerATime : Int
  timerA : Option Timer
  timerB : Option Timer
  timerDTime : Int
  timerD : Option Timer
  trace : List Effect
  deriving Repr

/-- A way in which a call of the Go program does not return: a run-time panic
(nil dereference, index out of range), or the goroutine blocked for ever on the
event lock of the state machine. -/
inductive Fault
  | nilDereference
  | indexOutOfRange
  | blocked
  deriving DecidableEq, Repr

/-- The event-name constants `client.go` uses but does not declare (they belong
to the server side of the package): a parameter of the embedding. -/
structure ServerInputs where
  serverInputRequest : String
  serverInputUser1xx : String
  serverInputUser2xx : String
  serverInputUser300Plus : String
  serverInputTransportErr : String
  deriving DecidableEq, Repr

/-- The network behind `ListeningPoint.Send`: `tp n = true` when the call made
after `n` earlier calls returns a non-nil error. -/
abbrev Transport := Nat → Bool

/-- Modelled from the spec: the timer constant `T1` (declared outside these
files), the baseline round-trip estimate of 500ms, in nanoseconds as a
`time.Duration`. -/
def T1 : Int := 500 * 1000000

/-- Arithmetic of Go `int64` (`time.Duration`): the result wraps around. -/
def wrapInt64 (x : Int) : Int := (x + 2 ^ 63) % 2 ^ 64 - 2 ^ 63

/-- Number of `ListeningPoint.Send` calls in a trace. -/
def sendCount (t : List Effect) : Nat :=
  (t.filter fun e => match e with
    | .send _ _ _ => true
    | _ => false).length

/-- The branches of the `DeleteTransaction` calls in a trace, in order. -/
def deletions (t : List Effect) : List String :=
  t.filterMap fun e => match e with
    | .deleteTransaction b => some b
    | _ => none

/-- The payloads and destinations of the `ListeningPoint.Send` calls in a trace,
in order. -/
def transmissions (t : List Effect) : List (String × String × Payload) :=
  t.filterMap fun e => match e with
    | .send h p b => some (h, p, b)
    | _ => none

/-- Go `ct.ListeningPoint.Send(ct.Host, ct.Port, ct.Origin.Export())`; the
boolean is `err != nil`.  A nil `Origin` or `ListeningPoint` panics. -/
def transmit (tp : Transport) (ct : ClientTransaction) :
    Except Fault (ClientTransaction × Bool) :=
  match ct.Origin, ct.ListeningPoint with
  | some o, some _ =>
    .ok ({ ct with trace := ct.trace ++ [.send ct.Host ct.Port (.exported o)] },
         tp (sendCount ct.trace))
  | _, _ => .error .nilDereference

/-- What `ct.FSM.Event(name)` does to the transaction, as seen by the method
that calls it. -/
abbrev Deliver := ClientTransaction → String → Except Fault ClientTransaction

/-- Go `ct.actSend`, with `ev` for its call of `ct.FSM.Event`. -/
def actSend (ev : Deliver) (tp : Transport) (ct : ClientTransaction) :
    Except Fault ClientTransaction :=
  match transmit tp ct with
  | .error e => .error e
  | .ok (ct, failed) => if failed then ev ct clientInputTransportErr else .ok ct

/-- Go `ct.act300`: logs and makes Timer D with `time.AfterFunc(ct.timerDTime, ...)`,
whose function delivers `clientInputTimerD`. -/
def act300 (ct : ClientTransaction) : ClientTransaction :=
  { ct with
    trace := ct.trace ++ [.logDebug "Client transaction %p, act_300"]
    timerD := some { delay := ct.timerDTime, event := clientInputTimerD, pending := true } }

/-- Go `ct.actTransErr`, with `ev` for its call of `ct.FSM.Event`. -/
def actTransErr (ev : Deliver) (ct : ClientTransaction) : Except Fault ClientTransaction :=
  ev { ct with trace := ct.trace ++ [.logError ("Transport error for transactionID : " ++ ct.BranchID)] }
    clientInputDelete

/-- Go `ct.actDelete`: `ct.TransManager.DeleteTransaction(string(ct.Origin.Via[0].Branch))`. -/
def actDelete (ct : ClientTransaction) : Except Fault ClientTransaction :=
  match ct.Origin with
  | none => .error .nilDereference
  | some o =>
    match o.Via with
    | [] => .error .indexOutOfRange
    | v :: _ => .ok { ct with trace := ct.trace ++ [.deleteTransaction v] }

/-- Go `ct.Resend`, with `ev` for its call of `ct.FSM.Event`. -/
def Resend (ev : Deliver) (tp : Transport) (ct : ClientTransaction) :
    Except Fault ClientTransaction :=
  match transmit tp ct with
  | .error e => .error e
  | .ok (ct, failed) => if failed then ev ct clientInputTransportErr else .ok ct

/-- Go `ct.actResend`, with `ev` for the call of `ct.FSM.Event` in `Resend`:
`ct.timerATime *= 2`, `ct.timerA.Reset(ct.timerATime)`, `ct.Resend()`. -/
def actResend (ev : Deliver) (tp : Transport) (ct : ClientTransaction) :
    Except Fault ClientTransaction :=
  let ct : ClientTransaction := { ct with
    trace := ct.trace ++ [.logDebug "Client transaction %p, act_resend"]
    timerATime := wrapInt64 (ct.timerATime * 2) }
  match ct.timerA with
  | none => .error .nilDereference
  | some t =>
    Resend ev tp { ct with timerA := some { t with delay := ct.timerATime, pending := true } }

/-- A call of `ct.FSM.Event` made by a callback, that is while the machine is
still inside the `Event` call that invoked the callback: `Event` holds the
machine's event lock (`eventMu`) for its whole duration and the lock is not
re-entrant, so the nested call waits for it for ever and never returns. -/
def duringTransition : Deliver := fun _ _ => .error .blocked

/-- Invocation of a stored callback by the state machine. -/
def runAction (tp : Transport) (a : Action) (ct : ClientTransaction) :
    Except Fault ClientTransaction :=
  match a with
  | .actSend => actSend duringTransition tp ct
  | .act300 => .ok (act300 ct)
  | .actTransErr => actTransErr duringTransition ct
  | .actDelete => actDelete ct
  | .actResend => actResend duringTransition tp ct

/-- Invocation of a list of callbacks, in order; a callback that does not
return ends it. -/
def runActions (tp : Transport) : List Action → ClientTransaction →
    Except Fault ClientTransaction
  | [], ct => .ok ct
  | a :: rest, ct =>
    match runAction tp a ct with
    | .error e => .error e
    | .ok ct => runActions tp rest ct

/-- Go `ct.FSM.Event(event)` called from outside a callback, with the returned
error dropped as every caller in `client.go` does: the callbacks the library
invokes act on the transaction, and `ct.FSM` becomes the machine after the
event.  A nil `ct.FSM` panics. -/
def ClientTransaction.Event (tp : Transport) (ct : ClientTransaction) (event : String) :
    Except Fault ClientTransaction :=
  match ct.FSM with
  | none => .error .nilDereference
  | some f =>
    let o := f.Event event
    match runActions tp o.pre ct with
    | .error e => .error e
    | .ok ct => runActions tp o.post { ct with FSM := some o.fsm }

/-- Go `ct.InitFSM(msg)`. -/
def InitFSM (ct : ClientTransaction) (msg : SipMsg) : ClientTransaction :=
  { ct with FSM := some (initMachine msg.Method) }

/-- Go `ct.SetListeningPoint(lp)`. -/
def SetListeningPoint (ct : ClientTransaction) (lp : Nat) : ClientTransaction :=
  { ct with ListeningPoint := some lp }

/-- Go `ct.GetBranchId()`. -/
def GetBranchId (ct : ClientTransaction) : String := ct.BranchID

/-- Go `ct.GetOrigin()`. -/
def GetOrigin (ct : ClientTransaction) : Option SipMsg := ct.Origin

/-- Go `ct.Receive(msg)` of `sip/transaction/client.go`. -/
def Receive (k : ServerInputs) (tp : Transport) (ct : ClientTransaction) (msg : SipMsg) :
    Except Fault ClientTransaction :=
  let ct := { ct with LastMessage := some msg }
  if msg.StatusCode < 200 then ct.Event tp k.serverInputUser1xx
  else if msg.StatusCode < 300 then ct.Event tp k.serverInputUser2xx
  else ct.Event tp k.serverInputUser300Plus

/-- Go `ct.SetServerTransaction(tx)`. -/
def SetServerTransaction (ct : ClientTransaction) (tx : Option String) : ClientTransaction :=
  { ct with ServerTx := tx }

/-- Go `ct.GetServerTransaction()`. -/
def GetServerTransaction (ct : ClientTransaction) : Option String := ct.ServerTx

/-- Go `ct.GetLastMessage()`. -/
def GetLastMessage (ct : ClientTransaction) : Option SipMsg := ct.LastMessage

/-- Go `ct.StatelessSend(msg, host, port)`: sends `ct.Origin` to `ct.Host`,
`ct.Port` (its arguments are not used) and logs a failure. -/
def StatelessSend (tp : Transport) (ct : ClientTransaction) (_msg : SipMsg)
    (_host _port : String) : Except Fault ClientTransaction :=
  match transmit tp ct with
  | .error e => .error e
  | .ok (ct, failed) =>
    if failed then
      .ok { ct with trace := ct.trace ++ [.logError ("Transport error for transactionID : " ++ ct.BranchID)] }
    else .ok ct

/-- Go `ct.Send(msg, host, port)`.  The deferred
`ct.FSM.Event(serverInputRequest)` runs last, after the transmission and after
the event raised for a failed transmission. -/
def Send (k : ServerInputs) (tp : Transport) (ct : ClientTransaction) (msg : SipMsg)
    (host port : String) : Except Fault ClientTransaction :=
  let ct := { ct with Origin := some msg, Host := host, Port := port, timerATime := T1 }
  let ct := { ct with
    timerA := some { delay := ct.timerATime, event := clientInputTimerA, pending := true } }
  let ct := { ct with
    timerB := some { delay := 64 * T1, event := clientInputTimerB, pending := true } }
  match transmit tp ct with
  | .error e => .error e
  | .ok (ct, failed) =>
    match (if failed then ct.Event tp k.serverInputTransportErr else .ok ct) with
    | .error e => .error e
    | .ok ct => ct.Event tp k.serverInputRequest

/-- The state of the transaction's machine (`ct.FSM.Current()`). -/
def ClientTransaction.state (ct : ClientTransaction) : Option String :=
  ct.FSM.map fsm.FSM.Current

/-- The transaction's machine is the one `InitFSM` builds for an INVITE request,
now in state `s`. -/
def InviteIn (ct : ClientTransaction) (s : String) : Prop :=
  ct.FSM = some { initMachine methodINVITE with current := s }

/-- The INVITE transition table as the specification gives it, for the events
request-sent, 1xx, 2xx, 300+ and transport-error: the destination of a listed
(state, event) pair, the unchanged state otherwise. -/
def specNext (s e : String) : String :=
  if e = clientInputRequest ∧ s = "" then "Calling"
  else if e = clientInput1xx ∧ s = "Calling" then "Proceeding"
  else if e = clientInput300Plus ∧ s = "Proceeding" then "Completed"
  else if e = clientInput2xx ∧ s = "Proceeding" then "Terminated"
  else if e = clientInputTransportErr ∧ (s = "Calling" ∨ s = "Proceeding" ∨ s = "Completed")
    then "Terminated"
  else s

/-- The five events of the table. -/
def tableEvents : List String :=
  [clientInputRequest, clientInput1xx, clientInput2xx, clientInput300Plus,
   clientInputTransportErr]

/-- The five states of the client machine. -/
def clientStates : List String :=
  ["", "Calling", "Proceeding", "Completed", "Terminated"]

/-! ## `internal/kalbi/sip/transaction/transaction.go` -/

namespace internal

/-- Go `struct ClientTransaction` of the internal package.  The callbacks of
its machine are built outside the file and are named by a label. -/
structure ClientTransaction where
  ID : String
  FSM : Option (fsm.FSM String)
  msg_history : List SipMsg
  deriving Repr

/-- Go `ct.Receive(msg)` of the internal package. -/
def ClientTransaction.Receive (ct : ClientTransaction) (msg : SipMsg) : ClientTransaction :=
  { ct with msg_history := ct.msg_history ++ [msg] }

/-- Go `struct ServerTransaction`.  The machine behind `FSM` is built outside
the file: it is an arbitrary machine whose callbacks are named by a label.
`trace` is not a Go field: it lists the calls made so far on the collaborators,
the invocations of the machine's callbacks among them. -/
structure ServerTransaction where
  ID : String
  FSM : Option (fsm.FSM String)
  msg_history : List SipMsg
  trace : List Effect
  deriving Repr

/-- Go `st.Receive(msg)`. -/
def ServerTransaction.Receive (st : ServerTransaction) (msg : SipMsg) :
    Except Fault ServerTransaction :=
  let st : ServerTransaction := { st with msg_history := st.msg_history ++ [msg] }
  if msg.Method = "ACK" then .ok st
  else if msg.Method = "CANCEL" ∨ msg.Method = "BYE" then
    .ok { st with
      trace := st.trace ++ [.udpSend msg.ContactHost msg.ContactPort (.response 200 msg)] }
  else
    match st.FSM with
    | none => .error .nilDereference
    | some f =>
      if f.Current = "" then
        let o := f.Event "Proceeding"
        .ok { st with
          FSM := some o.fsm
          trace := st.trace ++ (o.pre ++ o.post).map Effect.callback ++
            [ .logInfo ("returning response to : " ++ msg.ContactHost ++ ":" ++ msg.ContactPort),
              .udpSend msg.ContactHost msg.ContactPort (.response 100 msg),
              .handleSdp msg.Sdp,
              .udpSend msg.ContactHost msg.ContactPort (.response 200 msg) ] }
      else .ok st

/-- The state of the transaction's machine (`st.FSM.Current()`). -/
def ServerTransaction.state (st : ServerTransaction) : Option String :=
  st.FSM.map fsm.FSM.Current

end internal

/-! ## Notions used to state the properties -/

/-- An event-delivery function that leaves `LastMessage` and `msgHistory` as
they were. -/
def KeepsLog (ev : Deliver) : Prop :=
  ∀ c e c', ev c e = .ok c' → c'.LastMessage = c.LastMessage ∧ c'.msgHistory = c.msgHistory

/-- The calls on the transport and on the SDP collaborator in a trace, in
order: what is left when log lines and callback invocations are dropped. -/
def wire (t : List Effect) : List Effect :=
  t.filter fun e => match e with
    | .send _ _ _ => true
    | .udpSend _ _ _ => true
    | .handleSdp _ => true
    | _ => false

/-- The machine after a sequence of `Event` calls. -/
def fsm.FSM.run {κ : Type} (f : fsm.FSM κ) (events : List String) : fsm.FSM κ :=
  events.foldl (fun g e => (g.Event e).fsm) f

/-- The machine `InitFSM` builds for the given method, put in state `s`. -/
def machineIn (method s : String) : fsm.FSM Action :=
  { initMachine method with current := s }

/-- `n` successive runs of `ct.actResend`, each made outside a callback. -/
def resendRuns (tp : Transport) : Nat → ClientTransaction → Except Fault ClientTransaction
  | 0, ct => .ok ct
  | n + 1, ct =>
    match resendRuns tp n ct with
    | .error e => .error e
    | .ok c => actResend (ClientTransaction.Event tp) tp c

/-- Timer A goes off (the timer made in `Send`, client.go:191-193): a pending
timer stops being pending and its function runs, which delivers the timer's
event, `clientInputTimerA`, to the machine with `ct.FSM.Event`.  A timer that
does not exist or is not pending does not go off. -/
def timerAFires (tp : Transport) (ct : ClientTransaction) : Except Fault ClientTransaction :=
  match ct.timerA with
  | none => .ok ct
  | some t =>
    if t.pending then
      ClientTransaction.Event tp { ct with timerA := some { t with pending := false } } t.event
    else .ok ct

/-- One millisecond as a `time.Duration`. -/
def millisecond : Int := 1000000

/-! ## Concrete values used to exercise the theorems -/

/-- Server-side event names that differ from every client-side name. -/
def serverNames : ServerInputs :=
  { serverInputRequest := "server_input_request"
    serverInputUser1xx := "server_input_user_1xx"
    serverInputUser2xx := "server_input_user_2xx"
    serverInputUser300Plus := "server_input_user_300_plus"
    serverInputTransportErr := "server_input_transport_err" }

/-- An INVITE request with one Via. -/
def sampleInvite : SipMsg :=
  { Method := "INVITE", StatusCode := 0, Via := ["z9hG4bK74bf9"],
    ContactHost := "192.0.2.4", ContactPort := "5060", Sdp := "v=0" }

/-- A response with the given status code. -/
def sampleResponse (code : Int) : SipMsg :=
  { Method := "", StatusCode := code, Via := ["z9hG4bK74bf9"],
    ContactHost := "192.0.2.9", ContactPort := "5060", Sdp := "" }

/-- A request of the given method. -/
def sampleRequest (method : String) : SipMsg :=
  { Method := method, StatusCode := 0, Via := ["z9hG4bK74bf9"],
    ContactHost := "192.0.2.4", ContactPort := "5062", Sdp := "v=0" }

/-- A client transaction on which `InitFSM` and `SetListeningPoint` have run. -/
def freshClient : ClientTransaction :=
  SetListeningPoint
    (InitFSM
      { ID := "tx1", BranchID := "z9hG4bK74bf9", ServerTx := none, Origin := none, FSM := none,
        msgHistory := [], ListeningPoint := none, Host := "", Port := "", LastMessage := none,
        timerATime := 0, timerA := none, timerB := none, timerDTime := 0, timerD := none,
        trace := [] }
      sampleInvite)
    0

/-- An INVITE client transaction whose request has been sent to
`198.51.100.7:5060` and whose machine is in state `s`. -/
def sampleClient (s : String) : ClientTransaction :=
  { freshClient with
    Origin := some sampleInvite
    FSM := some { initMachine methodINVITE with current := s }
    Host := "198.51.100.7"
    Port := "5060"
    timerATime := T1
    timerA := some { delay := T1, event := clientInputTimerA, pending := true }
    timerB := some { delay := 64 * T1, event := clientInputTimerB, pending := true }
    trace := [.send "198.51.100.7" "5060" (.exported sampleInvite)] }

/-- A network on which every send succeeds. -/
def netUp : Transport := fun _ => false

/-- A network on which every send fails. -/
def netDown : Transport := fun _ => true

/-- A server transaction in state `s` of a machine with the single transition
`Proceeding` from `""` to `Proceeding` and no callbacks. -/
def sampleServer (s : String) : internal.ServerTransaction :=
  { ID := "tx2"
    FSM := some { fsm.NewFSM "" [{ Name := "Proceeding", Src := [""], Dst := "Proceeding" }] []
                  with current := s }
    msg_history := [sampleRequest "INVITE"]
    trace := [] }

/-- A second request, for a different destination. -/
def otherInvite : SipMsg :=
  { Method := "INVITE", StatusCode := 0, Via := ["z9hG4bKnashds8"],
    ContactHost := "192.0.2.77", ContactPort := "5080", Sdp := "v=0" }

/-- Server-side event names equal to the client-side ones. -/
def clientNames : ServerInputs :=
  { serverInputRequest := clientInputRequest
    serverInputUser1xx := clientInput1xx
    serverInputUser2xx := clientInput2xx
    serverInputUser300Plus := clientInput300Plus
    serverInputTransportErr := clientInputTransportErr }

/-- A server transaction in state `s` whose machine stores a callback for
entering `Proceeding`. -/
def sampleServerWithCallback (s : String) : internal.ServerTransaction :=
  { ID := "tx3"
    FSM := some { fsm.NewFSM "" [{ Name := "Proceeding", Src := [""], Dst := "Proceeding" }]
                    [("enter_Proceeding", "Run")]
                  with current := s }
    msg_history := []
    trace := [] }

/-! ## Lemmas on the library model -/

theorem lookup_cons_ite {α β : Type} [BEq α] [LawfulBEq α] [DecidableEq α] (a k : α) (b : β)
    (es : List (α × β)) :
    List.lookup a ((k, b) :: es) = if a = k then some b else List.lookup a es := by
  by_cases h : a = k
  · subst h; simp [List.lookup]
  · have : (a == k) = false := by simpa using h
    simp [List.lookup, this, h]

/-- The `transitions` map of the INVITE machine, as `NewFSM` builds it. -/
theorem invite_transitions :
    (initMachine methodINVITE).transitions =
      [ (("client_input_request", ""), "Calling"),
        (("client_input_1xx", "Calling"), "Proceeding"),
        (("client_input_300_plus", "Proceeding"), "Completed"),
        (("client_input_2xx", "Proceeding"), "Terminated"),
        (("client_input_transport_err", "Calling"), "Terminated"),
        (("client_input_transport_err", "Proceeding"), "Terminated"),
        (("client_input_transport_err", "Completed"), "Terminated") ] := by
  rfl

/-- The `callbacks` map of the INVITE machine, as `NewFSM` builds it: the
entries of `fsm.Callbacks` keyed by `clientInputTimerA` and `clientInputTimerB`
name neither a state nor an event and are not stored. -/
theorem invite_callbacks :
    (initMachine methodINVITE).callbacks =
      [ (("client_input_2xx", .afterEvent), .actDelete),
        (("client_input_300_plus", .afterEvent), .act300) ] := by
  rfl

theorem invite_lookup (e s : String) :
    (initMachine methodINVITE).transitions.lookup (e, s) =
      if e = "client_input_request" ∧ s = "" then some "Calling"
      else if e = "client_input_1xx" ∧ s = "Calling" then some "Proceeding"
      else if e = "client_input_300_plus" ∧ s = "Proceeding" then some "Completed"
      else if e = "client_input_2xx" ∧ s = "Proceeding" then some "Terminated"
      else if e = "client_input_transport_err" ∧ s = "Calling" then some "Terminated"
      else if e = "client_input_transport_err" ∧ s = "Proceeding" then some "Terminated"
      else if e = "client_input_transport_err" ∧ s = "Completed" then some "Terminated"
      else none := by
  rw [invite_transitions]
  simp only [lookup_cons_ite, Prod.mk.injEq, List.lookup_nil]

theorem invite_callback (s t : String) (kind : fsm.CallbackType) :
    ({ initMachine methodINVITE with current := s } : fsm.FSM Action).callback t kind =
      if t = "client_input_2xx" ∧ kind = .afterEvent then [Action.actDelete]
      else if t = "client_input_300_plus" ∧ kind = .afterEvent then [Action.act300]
      else [] := by
  simp only [fsm.FSM.callback, invite_callbacks, lookup_cons_ite, Prod.mk.injEq,
    List.lookup_nil]
  split_ifs <;> rfl

/-- The INVITE machine invokes no callback before the state changes. -/
theorem invite_Event_pre (s e : String) :
    (({ initMachine methodINVITE with current := s } : fsm.FSM Action).Event e).pre = [] := by
  simp only [fsm.FSM.Event]
  split
  · split_ifs <;> rfl
  · split_ifs <;> simp [invite_callback]

/-- The INVITE machine after an event is the machine in the state the table
gives. -/
theorem invite_Event_fsm (s e : String) :
    (({ initMachine methodINVITE with current := s } : fsm.FSM Action).Event e).fsm =
      { initMachine methodINVITE with current := specNext s e } := by
  simp only [fsm.FSM.Event, invite_lookup, specNext, clientInputRequest, clientInput1xx,
    clientInput2xx, clientInput300Plus, clientInputTransportErr]
  by_cases h1 : e = "client_input_request" ∧ s = ""
  · simp [h1]
  by_cases h2 : e = "client_input_1xx" ∧ s = "Calling"
  · simp [h2]
  by_cases h3 : e = "client_input_300_plus" ∧ s = "Proceeding"
  · simp [h3]
  by_cases h4 : e = "client_input_2xx" ∧ s = "Proceeding"
  · simp [h4]
  by_cases h5 : e = "client_input_transport_err" ∧ s = "Calling"
  · simp [h5]
  by_cases h6 : e = "client_input_transport_err" ∧ s = "Proceeding"
  · simp [h6]
  by_cases h7 : e = "client_input_transport_err" ∧ s = "Completed"
  · simp [h7]
  simp only [h1, h2, h3, h4, h5, h6, h7, if_false]
  have h8 : ¬ (e = "client_input_transport_err" ∧
      (s = "Calling" ∨ s = "Proceeding" ∨ s = "Completed")) := by
    rintro ⟨he, hs | hs | hs⟩
    · exact h5 ⟨he, hs⟩
    · exact h6 ⟨he, hs⟩
    · exact h7 ⟨he, hs⟩
  simp only [h8, if_false]
  split_ifs <;> rfl

/-- The callbacks the INVITE machine invokes after the state has changed:
`actDelete` for 2xx in `Proceeding`, `act300` for 300+ in `Proceeding`, none
otherwise. -/
theorem invite_Event_post (s e : String) :
    (({ initMachine methodINVITE with current := s } : fsm.FSM Action).Event e).post =
      if e = clientInput2xx ∧ s = "Proceeding" then [Action.actDelete]
      else if e = clientInput300Plus ∧ s = "Proceeding" then [Action.act300]
      else [] := by
  simp only [fsm.FSM.Event, invite_lookup, clientInputRequest, clientInput1xx,
    clientInput2xx, clientInput300Plus, clientInputTransportErr]
  by_cases h1 : e = "client_input_request" ∧ s = ""
  · simp [h1, invite_callback]
  by_cases h2 : e = "client_input_1xx" ∧ s = "Calling"
  · simp [h2, invite_callback]
  by_cases h3 : e = "client_input_300_plus" ∧ s = "Proceeding"
  · simp [h3, invite_callback]
  by_cases h4 : e = "client_input_2xx" ∧ s = "Proceeding"
  · simp [h4, invite_callback]
  by_cases h5 : e = "client_input_transport_err" ∧ s = "Calling"
  · simp [h5, invite_callback]
  by_cases h6 : e = "client_input_transport_err" ∧ s = "Proceeding"
  · simp [h6, invite_callback]
  by_cases h7 : e = "client_input_transport_err" ∧ s = "Completed"
  · simp [h7, invite_callback]
  simp only [h1, h2, h3, h4, h5, h6, h7, if_false]
  split_ifs <;> rfl

/-- What `ct.FSM.Event(e)` does to an INVITE transaction in state `s`. -/
theorem invite_Event (tp : Transport) (ct : ClientTransaction) (s e : String)
    (h : InviteIn ct s) :
    ct.Event tp e =
      if e = clientInput2xx ∧ s = "Proceeding" then
        actDelete { ct with FSM := some { initMachine methodINVITE with current := "Terminated" } }
      else if e = clientInput300Plus ∧ s = "Proceeding" then
        .ok (act300 { ct with FSM := some { initMachine methodINVITE with current := "Completed" } })
      else .ok { ct with FSM := some { initMachine methodINVITE with current := specNext s e } } := by
  unfold InviteIn at h
  simp only [ClientTransaction.Event, h, invite_Event_pre, invite_Event_fsm, invite_Event_post,
    runActions]
  by_cases h1 : e = clientInput2xx ∧ s = "Proceeding"
  · simp only [h1, and_self, if_true, runActions, runAction]
    obtain ⟨rfl, rfl⟩ := h1
    have : specNext "Proceeding" clientInput2xx = "Terminated" := by decide
    rw [this]
    cases actDelete _ <;> rfl
  by_cases h2 : e = clientInput300Plus ∧ s = "Proceeding"
  · simp only [h1, h2, and_self, if_true, if_false, runActions, runAction]
    obtain ⟨rfl, rfl⟩ := h2
    have : specNext "Proceeding" clientInput300Plus = "Completed" := by decide
    rw [this, if_neg (by decide)]
  · simp only [h1, h2, if_false, runActions]

/-- An event whose name is not in the table leaves every state unchanged. -/
theorem specNext_of_not_mem (s e : String) (he : e ∉ tableEvents) : specNext s e = s := by
  simp only [tableEvents, List.mem_cons, List.mem_singleton, List.not_mem_nil, or_false,
    not_or] at he
  obtain ⟨h1, h2, h3, h4, h5⟩ := he
  simp [specNext, h1, h2, h3, h4, h5]

/-- From the initial state only the request-sent event moves the machine. -/
theorem specNext_initial (e : String) :
    specNext "" e = if e = clientInputRequest then "Calling" else "" := by
  simp only [specNext]
  split_ifs <;> simp_all

/-- Writing the machine a transaction already has back into it changes nothing. -/
theorem set_FSM_self (ct : ClientTransaction) (s : String) (h : InviteIn ct s) :
    { ct with FSM := some { initMachine methodINVITE with current := s } } = ct := by
  unfold InviteIn at h
  cases ct
  simp only [ClientTransaction.mk.injEq, true_and, and_true] at h ⊢
  exact h.symm

/-! ## The INVITE client machine -/

/-- C1: the machine `InitFSM` builds for an INVITE request starts in `""` and,
put in any state `s`, an event `e` among request-sent, 1xx, 2xx, 300+ and
transport-error takes it to the state the specification's table gives: the
listed destination for a listed (state, event) pair, `s` itself otherwise. -/
theorem C1_invite_transition_table (ct : ClientTransaction) (msg : SipMsg)
    (hm : msg.Method = methodINVITE) (s e : String) (_he : e ∈ tableEvents) :
    ∃ f, (InitFSM ct msg).FSM = some f ∧ f.Current = "" ∧
      (({ f with current := s } : fsm.FSM Action).Event e).fsm.Current = specNext s e := by
  refine ⟨initMachine methodINVITE, by simp [InitFSM, hm], rfl, ?_⟩
  have h := invite_Event_fsm s e
  simp only [fsm.FSM.Current] at h ⊢
  rw [h]

theorem C1_invite_transition_table_witness :
    ∃ f, (InitFSM freshClient sampleInvite).FSM = some f ∧ f.Current = "" ∧
      (({ f with current := "Proceeding" } : fsm.FSM Action).Event clientInput2xx).fsm.Current
        = "Terminated" :=
  C1_invite_transition_table freshClient sampleInvite rfl "Proceeding" clientInput2xx
    (by decide)

/-- The table of the specification, row by row, on the five states. -/
theorem specNext_rows :
    specNext "" clientInputRequest = "Calling" ∧
    specNext "Calling" clientInput1xx = "Proceeding" ∧
    specNext "Proceeding" clientInput300Plus = "Completed" ∧
    specNext "Proceeding" clientInput2xx = "Terminated" ∧
    specNext "Calling" clientInputTransportErr = "Terminated" ∧
    specNext "Proceeding" clientInputTransportErr = "Terminated" ∧
    specNext "Completed" clientInputTransportErr = "Terminated" := by
  decide

/-! ## `Receive` and `Send` of the client transaction -/

/-- `act300` issues no `DeleteTransaction`. -/
theorem deletions_act300 (ct : ClientTransaction) :
    deletions (act300 ct).trace = deletions ct.trace := by
  simp [act300, deletions, List.filterMap_append]

/-- C2: an INVITE client transaction in `Proceeding` receives a message with
status code 200.  `Receive` delivers the event named `serverInputUser2xx`;
whenever that name is not the client's `clientInput2xx`, no `DeleteTransaction`
is issued, and the state afterwards is the one the table gives for the delivered
name (`Proceeding` for a name outside the table). -/
theorem C2_receive_200_without_delete (k : ServerInputs) (tp : Transport)
    (ct : ClientTransaction) (msg : SipMsg) (h : InviteIn ct "Proceeding")
    (hc : msg.StatusCode = 200) (hk : k.serverInputUser2xx ≠ clientInput2xx) :
    ∃ ct', Receive k tp ct msg = .ok ct' ∧
      deletions ct'.trace = deletions ct.trace ∧
      ct'.state = some (specNext "Proceeding" k.serverInputUser2xx) := by
  have h' : InviteIn { ct with LastMessage := some msg } "Proceeding" := h
  simp only [Receive, hc]
  rw [if_neg (by decide), if_pos (by decide), invite_Event tp _ _ _ h']
  rw [if_neg (fun hh => hk hh.1)]
  by_cases h3 : k.serverInputUser2xx = clientInput300Plus
  · rw [if_pos ⟨h3, rfl⟩]
    refine ⟨_, rfl, ?_, ?_⟩
    · rw [deletions_act300]
    · rw [h3]; rfl
  · rw [if_neg (fun hh => h3 hh.1)]
    exact ⟨_, rfl, rfl, rfl⟩

theorem C2_receive_200_without_delete_witness :
    ∃ ct', Receive serverNames netUp (sampleClient "Proceeding") (sampleResponse 200) = .ok ct' ∧
      deletions ct'.trace = [] ∧ ct'.state = some "Proceeding" :=
  C2_receive_200_without_delete serverNames netUp (sampleClient "Proceeding")
    (sampleResponse 200) rfl rfl (by decide)

/-- With the client's own name for the event, `Receive` of a 200 in
`Proceeding` ends in `Terminated` with one `DeleteTransaction` for the branch of
the top Via of the original request. -/
theorem Receive_200_of_client_name (k : ServerInputs) (tp : Transport)
    (ct : ClientTransaction) (msg o : SipMsg) (b : String) (rest : List String)
    (h : InviteIn ct "Proceeding") (hc : msg.StatusCode = 200)
    (hk : k.serverInputUser2xx = clientInput2xx) (ho : ct.Origin = some o)
    (hv : o.Via = b :: rest) :
    ∃ ct', Receive k tp ct msg = .ok ct' ∧ ct'.state = some "Terminated" ∧
      ct'.trace = ct.trace ++ [.deleteTransaction b] := by
  have h' : InviteIn { ct with LastMessage := some msg } "Proceeding" := h
  simp only [Receive, hc]
  rw [if_neg (by decide), if_pos (by decide), invite_Event tp _ _ _ h', if_pos ⟨hk, rfl⟩]
  simp only [actDelete, ho, hv]
  exact ⟨_, rfl, rfl, rfl⟩

/-- The transaction `Send` leaves behind when the transmission succeeds and
the deferred event does not move the machine. -/
theorem transmit_after_store (tp : Transport) (ct : ClientTransaction) (msg : SipMsg)
    (host port : String) (lp : Nat) (hl : ct.ListeningPoint = some lp) :
    transmit tp { ct with
        Origin := some msg, Host := host, Port := port, timerATime := T1
        timerA := some { delay := T1, event := clientInputTimerA, pending := true }
        timerB := some { delay := 64 * T1, event := clientInputTimerB, pending := true } } =
      .ok ({ ct with
        Origin := some msg, Host := host, Port := port, timerATime := T1
        timerA := some { delay := T1, event := clientInputTimerA, pending := true }
        timerB := some { delay := 64 * T1, event := clientInputTimerB, pending := true }
        trace := ct.trace ++ [.send host port (.exported msg)] }, tp (sendCount ct.trace)) := by
  simp only [transmit, hl]

/-- C3: an INVITE client transaction in the initial state sends `msg` to
`(host, port)` and the transport send succeeds.  `Send` stores `Origin`, `Host`
and `Port`, arms Timer A with `T1` and Timer B with `64 * T1` and transmits the
exported `msg` once; its deferred event is the one named `serverInputRequest`,
and whenever that name is not the client's `clientInputRequest` the state is
still `""` when `Send` returns. -/
theorem C3_send_stays_initial (k : ServerInputs) (tp : Transport) (ct : ClientTransaction)
    (msg : SipMsg) (host port : String) (lp : Nat) (h : InviteIn ct "")
    (hl : ct.ListeningPoint = some lp) (hs : tp (sendCount ct.trace) = false)
    (hk : k.serverInputRequest ≠ clientInputRequest) :
    ∃ ct', Send k tp ct msg host port = .ok ct' ∧ ct'.state = some "" ∧
      ct'.Origin = some msg ∧ ct'.Host = host ∧ ct'.Port = port ∧
      ct'.timerA = some { delay := T1, event := clientInputTimerA, pending := true } ∧
      ct'.timerB = some { delay := 64 * T1, event := clientInputTimerB, pending := true } ∧
      ct'.trace = ct.trace ++ [.send host port (.exported msg)] := by
  have hE : ∀ (c : ClientTransaction) (e : String), c.FSM = ct.FSM →
      c.Event tp e = .ok { c with
        FSM := some { initMachine methodINVITE with
          current := if e = clientInputRequest then "Calling" else "" } } := by
    intro c e hc
    rw [invite_Event tp c "" e (hc.trans h), if_neg (by simp), if_neg (by simp),
      specNext_initial]
  simp only [Send, transmit_after_store tp ct msg host port lp hl, hs, Bool.false_eq_true,
    if_false]
  rw [hE, if_neg hk]
  · exact ⟨_, rfl, rfl, rfl, rfl, rfl, rfl, rfl, rfl⟩
  · rfl

theorem C3_send_stays_initial_witness :
    ∃ ct', Send serverNames netUp freshClient sampleInvite "198.51.100.7" "5060" = .ok ct' ∧
      ct'.state = some "" ∧
      ct'.Origin = some sampleInvite ∧ ct'.Host = "198.51.100.7" ∧ ct'.Port = "5060" ∧
      ct'.timerA = some { delay := T1, event := clientInputTimerA, pending := true } ∧
      ct'.timerB = some { delay := 64 * T1, event := clientInputTimerB, pending := true } ∧
      ct'.trace = [.send "198.51.100.7" "5060" (.exported sampleInvite)] :=
  C3_send_stays_initial serverNames netUp freshClient sampleInvite "198.51.100.7" "5060" 0
    rfl rfl rfl (by decide)

/-- With the client's own name for the deferred event, a successful `Send` from
the initial state ends in `Calling` with the fields, timers and transmission of
the table's first row. -/
theorem Send_of_client_name (k : ServerInputs) (tp : Transport) (ct : ClientTransaction)
    (msg : SipMsg) (host port : String) (lp : Nat) (h : InviteIn ct "")
    (hl : ct.ListeningPoint = some lp) (hs : tp (sendCount ct.trace) = false)
    (hk : k.serverInputRequest = clientInputRequest) :
    ∃ ct', Send k tp ct msg host port = .ok ct' ∧ ct'.state = some "Calling" ∧
      ct'.Origin = some msg ∧ ct'.Host = host ∧ ct'.Port = port ∧
      ct'.timerA = some { delay := T1, event := clientInputTimerA, pending := true } ∧
      ct'.timerB = some { delay := 64 * T1, event := clientInputTimerB, pending := true } ∧
      ct'.trace = ct.trace ++ [.send host port (.exported msg)] := by
  have hE : ∀ (c : ClientTransaction) (e : String), c.FSM = ct.FSM →
      c.Event tp e = .ok { c with
        FSM := some { initMachine methodINVITE with
          current := if e = clientInputRequest then "Calling" else "" } } := by
    intro c e hc
    rw [invite_Event tp c "" e (hc.trans h), if_neg (by simp), if_neg (by simp),
      specNext_initial]
  simp only [Send, transmit_after_store tp ct msg host port lp hl, hs, Bool.false_eq_true,
    if_false]
  rw [hE, if_pos hk]
  · exact ⟨_, rfl, rfl, rfl, rfl, rfl, rfl, rfl, rfl⟩
  · rfl

/-- C4: an INVITE client transaction in the initial state calls `Send` and the
transport send fails.  The event raised for the failure is delivered while the
state is still `""`, where the table has no transport-error row, and the
deferred request event runs after it: when `Send` returns the state is `Calling`
if `serverInputRequest` is the client's request event and `""` otherwise, never
`Terminated`.  (The name raised for the failure is assumed not to be the
client's request event.) -/
theorem C4_failed_send_not_terminated (k : ServerInputs) (tp : Transport)
    (ct : ClientTransaction) (msg : SipMsg) (host port : String) (lp : Nat)
    (h : InviteIn ct "") (hl : ct.ListeningPoint = some lp)
    (hs : tp (sendCount ct.trace) = true)
    (hk : k.serverInputTransportErr ≠ clientInputRequest) :
    ∃ ct', Send k tp ct msg host port = .ok ct' ∧
      ct'.state = some (if k.serverInputRequest = clientInputRequest then "Calling" else "") ∧
      ct'.state ≠ some "Terminated" := by
  have hE : ∀ (c : ClientTransaction) (e : String), c.FSM = ct.FSM →
      c.Event tp e = .ok { c with
        FSM := some { initMachine methodINVITE with
          current := if e = clientInputRequest then "Calling" else "" } } := by
    intro c e hc
    rw [invite_Event tp c "" e (hc.trans h), if_neg (by simp), if_neg (by simp),
      specNext_initial]
  simp only [Send, transmit_after_store tp ct msg host port lp hl, hs, if_true]
  rw [hE, if_neg hk]
  · simp only []
    rw [hE]
    · refine ⟨_, rfl, rfl, ?_⟩
      show some (if k.serverInputRequest = clientInputRequest then "Calling" else "") ≠
        some "Terminated"
      split_ifs <;> decide
    · exact h.symm
  · rfl

theorem C4_failed_send_not_terminated_witness :
    ∃ ct', Send serverNames netDown freshClient sampleInvite "198.51.100.7" "5060" = .ok ct' ∧
      ct'.state = some "" ∧ ct'.state ≠ some "Terminated" :=
  C4_failed_send_not_terminated serverNames netDown freshClient sampleInvite "198.51.100.7"
    "5060" 0 rfl rfl rfl (by decide)

/-! ## Timer and transport-error events of the INVITE machine -/

/-- C5: delivering the Timer A event (`clientInputTimerA`) to the machine of an
INVITE client transaction in `Calling`, `Proceeding` or `Completed` changes
nothing: the event has no row in the `fsm.Events` of `InitFSM`, so `actResend`
is not run, the stored Timer A interval is not doubled, Timer A is not reset
and nothing is transmitted. -/
theorem C5_timer_a_event_does_nothing (tp : Transport) (ct : ClientTransaction) (s : String)
    (h : InviteIn ct s) (_hs : s = "Calling" ∨ s = "Proceeding" ∨ s = "Completed") :
    ct.Event tp clientInputTimerA = .ok ct := by
  rw [invite_Event tp ct s _ h, if_neg (fun hh => absurd hh.1 (by decide)),
    if_neg (fun hh => absurd hh.1 (by decide)), specNext_of_not_mem s _ (by decide),
    set_FSM_self ct s h]

theorem C5_timer_a_event_does_nothing_witness :
    (sampleClient "Calling").Event netUp clientInputTimerA = .ok (sampleClient "Calling") :=
  C5_timer_a_event_does_nothing netUp (sampleClient "Calling") "Calling" rfl (Or.inl rfl)

/-- C6: delivering the Timer B event (`clientInputTimerB`) to the machine of an
INVITE client transaction in `Calling`, `Proceeding` or `Completed` changes
nothing: the event has no row in the `fsm.Events` of `InitFSM`, so the state
stays where it was and `actTransErr` is not run. -/
theorem C6_timer_b_event_does_nothing (tp : Transport) (ct : ClientTransaction) (s : String)
    (h : InviteIn ct s) (_hs : s = "Calling" ∨ s = "Proceeding" ∨ s = "Completed") :
    ct.Event tp clientInputTimerB = .ok ct ∧ ct.state = some s := by
  constructor
  · rw [invite_Event tp ct s _ h, if_neg (fun hh => absurd hh.1 (by decide)),
      if_neg (fun hh => absurd hh.1 (by decide)), specNext_of_not_mem s _ (by decide),
      set_FSM_self ct s h]
  · unfold InviteIn at h
    simp [ClientTransaction.state, h, fsm.FSM.Current]

theorem C6_timer_b_event_does_nothing_witness :
    (sampleClient "Proceeding").Event netUp clientInputTimerB = .ok (sampleClient "Proceeding") ∧
      (sampleClient "Proceeding").state = some "Proceeding" :=
  C6_timer_b_event_does_nothing netUp (sampleClient "Proceeding") "Proceeding" rfl
    (Or.inr (Or.inl rfl))

/-- C7: delivering the Timer D event (`clientInputTimerD`) to the machine of an
INVITE client transaction in `Completed` changes nothing: the state stays
`Completed` and no `DeleteTransaction` is issued, because the event has no row
in the `fsm.Events` of `InitFSM`. -/
theorem C7_timer_d_event_does_nothing (tp : Transport) (ct : ClientTransaction)
    (h : InviteIn ct "Completed") :
    ct.Event tp clientInputTimerD = .ok ct ∧ ct.state = some "Completed" := by
  constructor
  · rw [invite_Event tp ct _ _ h, if_neg (fun hh => absurd hh.1 (by decide)),
      if_neg (fun hh => absurd hh.1 (by decide)), specNext_of_not_mem _ _ (by decide),
      set_FSM_self ct _ h]
  · unfold InviteIn at h
    simp [ClientTransaction.state, h, fsm.FSM.Current]

theorem C7_timer_d_event_does_nothing_witness :
    (sampleClient "Completed").Event netUp clientInputTimerD = .ok (sampleClient "Completed") ∧
      (sampleClient "Completed").state = some "Completed" :=
  C7_timer_d_event_does_nothing netUp (sampleClient "Completed") rfl

/-- With the client's own name for the event, `Receive` of a response with
status code 300 or more in `Proceeding` ends in `Completed` with Timer D armed
with `timerDTime`. -/
theorem Receive_300_of_client_name (k : ServerInputs) (tp : Transport)
    (ct : ClientTransaction) (msg : SipMsg) (h : InviteIn ct "Proceeding")
    (hc : 300 ≤ msg.StatusCode) (hk : k.serverInputUser300Plus = clientInput300Plus) :
    ∃ ct', Receive k tp ct msg = .ok ct' ∧ ct'.state = some "Completed" ∧
      ct'.timerD = some { delay := ct.timerDTime, event := clientInputTimerD, pending := true } := by
  have h' : InviteIn { ct with LastMessage := some msg } "Proceeding" := h
  simp only [Receive]
  rw [if_neg (by omega), if_neg (by omega), invite_Event tp _ _ _ h',
    if_neg (fun hh => absurd (hk.symm.trans hh.1) (by decide)), if_pos ⟨hk, rfl⟩]
  exact ⟨_, rfl, rfl, rfl⟩

/-- A transport-error event in `Calling`, `Proceeding` or `Completed` moves the
INVITE machine to `Terminated` and makes no call on a collaborator. -/
theorem invite_transport_error (tp : Transport) (ct : ClientTransaction)
    (s : String) (h : InviteIn ct s)
    (hs : s = "Calling" ∨ s = "Proceeding" ∨ s = "Completed") :
    ct.Event tp clientInputTransportErr =
      .ok { ct with FSM := some { initMachine methodINVITE with current := "Terminated" } } := by
  rw [invite_Event tp ct s _ h, if_neg (fun hh => absurd hh.1 (by decide)),
    if_neg (fun hh => absurd hh.1 (by decide))]
  have : specNext s clientInputTransportErr = "Terminated" := by
    rcases hs with rfl | rfl | rfl <;> decide
  rw [this]

/-- C8: a transport-error event (`clientInputTransportErr`) delivered to the
machine of an INVITE client transaction in `Calling`, `Proceeding` or
`Completed` moves it to `Terminated` and does nothing else: no callback is
stored for the event, so the trace of calls on the collaborators is unchanged
and no `DeleteTransaction` is issued. -/
theorem C8_transport_error_without_delete (tp : Transport) (ct : ClientTransaction)
    (s : String) (h : InviteIn ct s)
    (hs : s = "Calling" ∨ s = "Proceeding" ∨ s = "Completed") :
    ∃ ct', ct.Event tp clientInputTransportErr = .ok ct' ∧ ct'.state = some "Terminated" ∧
      ct'.trace = ct.trace ∧ deletions ct'.trace = deletions ct.trace :=
  ⟨_, invite_transport_error tp ct s h hs, rfl, rfl, rfl⟩

theorem C8_transport_error_without_delete_witness :
    ∃ ct', (sampleClient "Calling").Event netDown clientInputTransportErr = .ok ct' ∧
      ct'.state = some "Terminated" ∧
      ct'.trace = [.send "198.51.100.7" "5060" (.exported sampleInvite)] ∧
      deletions ct'.trace = [] :=
  C8_transport_error_without_delete netDown (sampleClient "Calling") "Calling" rfl (Or.inl rfl)

/-- A retransmission by `Resend` that fails: the request is transmitted once,
the machine goes to `Terminated`, and no `DeleteTransaction` is issued. -/
theorem Resend_failure_without_delete (tp : Transport) (ct : ClientTransaction) (s : String)
    (o : SipMsg) (lp : Nat) (h : InviteIn ct s)
    (hs : s = "Calling" ∨ s = "Proceeding" ∨ s = "Completed") (ho : ct.Origin = some o)
    (hl : ct.ListeningPoint = some lp) (hf : tp (sendCount ct.trace) = true) :
    ∃ ct', Resend (ClientTransaction.Event tp) tp ct = .ok ct' ∧
      ct'.state = some "Terminated" ∧
      ct'.trace = ct.trace ++ [.send ct.Host ct.Port (.exported o)] ∧
      deletions ct'.trace = deletions ct.trace := by
  have h' : InviteIn { ct with trace := ct.trace ++ [.send ct.Host ct.Port (.exported o)] } s := h
  have h1 := invite_transport_error tp _ s h' hs
  have h2 : Resend (ClientTransaction.Event tp) tp ct = .ok { ct with
      FSM := some { initMachine methodINVITE with current := "Terminated" }
      trace := ct.trace ++ [.send ct.Host ct.Port (.exported o)] } := by
    simp only [Resend, transmit, ho, hl, hf, if_true]
    simp only [ho, hl] at h1
    rw [h1]
  refine ⟨_, h2, rfl, rfl, ?_⟩
  simp [deletions, List.filterMap_append]

/-! ## `Receive` of the server transaction -/

/-- C9: for a server transaction in any state and a message whose method is
ACK, `Receive` appends the message to the history and does nothing else: no
transport send, no call of the SDP collaborator, no change of the machine. -/
theorem C9_ack_is_inert (st : internal.ServerTransaction) (msg : SipMsg)
    (hm : msg.Method = "ACK") :
    st.Receive msg = .ok { st with msg_history := st.msg_history ++ [msg] } := by
  simp [internal.ServerTransaction.Receive, hm]

theorem C9_ack_is_inert_witness :
    (sampleServer "Proceeding").Receive (sampleRequest "ACK") =
      .ok { sampleServer "Proceeding" with
        msg_history := (sampleServer "Proceeding").msg_history ++ [sampleRequest "ACK"] } :=
  C9_ack_is_inert (sampleServer "Proceeding") (sampleRequest "ACK") rfl

/-- C10: for a server transaction in any state and a message whose method is
CANCEL or BYE, `Receive` appends the message to the history and performs
exactly one transport send, of the 200 response built from the message, to the
message's Contact host and port; the SDP collaborator is not called and the
machine is not changed. -/
theorem C10_cancel_bye_fast_path (st : internal.ServerTransaction) (msg : SipMsg)
    (hm : msg.Method = "CANCEL" ∨ msg.Method = "BYE") :
    st.Receive msg = .ok { st with
      msg_history := st.msg_history ++ [msg]
      trace := st.trace ++ [.udpSend msg.ContactHost msg.ContactPort (.response 200 msg)] } := by
  have hna : msg.Method ≠ "ACK" := by
    rcases hm with h | h <;> rw [h] <;> decide
  simp [internal.ServerTransaction.Receive, hm, hna]

theorem C10_cancel_bye_fast_path_witness :
    (sampleServer "").Receive (sampleRequest "BYE") = .ok { sampleServer "" with
      msg_history := (sampleServer "").msg_history ++ [sampleRequest "BYE"]
      trace := (sampleServer "").trace ++
        [.udpSend (sampleRequest "BYE").ContactHost (sampleRequest "BYE").ContactPort
          (.response 200 (sampleRequest "BYE"))] } :=
  C10_cancel_bye_fast_path (sampleServer "") (sampleRequest "BYE") (Or.inr rfl)

/-! ## First request on a server transaction -/

/-- What `Receive` adds to the trace of a server transaction in the initial
state for a request other than ACK, CANCEL and BYE: the callbacks of its machine
for the event `Proceeding`, the log line, and the three calls. -/
theorem server_first_request (st : internal.ServerTransaction) (msg : SipMsg)
    (f : fsm.FSM String) (hf : st.FSM = some f) (hs : f.Current = "")
    (h1 : msg.Method ≠ "ACK") (h2 : msg.Method ≠ "CANCEL") (h3 : msg.Method ≠ "BYE") :
    st.Receive msg = .ok { st with
      msg_history := st.msg_history ++ [msg]
      FSM := some (f.Event "Proceeding").fsm
      trace := st.trace ++
        ((f.Event "Proceeding").pre ++ (f.Event "Proceeding").post).map Effect.callback ++
        [ .logInfo ("returning response to : " ++ msg.ContactHost ++ ":" ++ msg.ContactPort),
          .udpSend msg.ContactHost msg.ContactPort (.response 100 msg),
          .handleSdp msg.Sdp,
          .udpSend msg.ContactHost msg.ContactPort (.response 200 msg) ] } := by
  simp [internal.ServerTransaction.Receive, h1, h2, h3, hf, hs]

/-- Callback invocations are no calls on the transport or the SDP collaborator. -/
theorem wire_callbacks (l : List String) : wire (l.map Effect.callback) = [] := by
  induction l with
  | nil => rfl
  | cons a l ih =>
    simp only [wire, List.map_cons, List.filter_cons] at ih ⊢
    exact ih

/-- C11: for a server transaction in the initial state `""` and a message whose
method is not ACK, CANCEL or BYE, the calls `Receive` makes on the transport and
on the SDP collaborator are exactly, in this order: the send of the 100
response, the call of the SDP collaborator with the message's SDP payload, the
send of the 200 response; both sends go to the message's Contact host and
port. -/
theorem C11_first_request_sequence (st : internal.ServerTransaction) (msg : SipMsg)
    (f : fsm.FSM String) (hf : st.FSM = some f) (hs : f.Current = "")
    (h1 : msg.Method ≠ "ACK") (h2 : msg.Method ≠ "CANCEL") (h3 : msg.Method ≠ "BYE") :
    ∃ st', st.Receive msg = .ok st' ∧
      wire st'.trace = wire st.trace ++
        [ .udpSend msg.ContactHost msg.ContactPort (.response 100 msg),
          .handleSdp msg.Sdp,
          .udpSend msg.ContactHost msg.ContactPort (.response 200 msg) ] := by
  refine ⟨_, server_first_request st msg f hf hs h1 h2 h3, ?_⟩
  have hw : ∀ a b : List Effect, wire (a ++ b) = wire a ++ wire b := by
    intro a b; simp [wire]
  simp only [hw, wire_callbacks, List.append_nil]
  simp [wire]

theorem C11_first_request_sequence_witness :
    ∃ st', (sampleServerWithCallback "").Receive (sampleRequest "INVITE") = .ok st' ∧
      wire st'.trace = wire (sampleServerWithCallback "").trace ++
        [ .udpSend "192.0.2.4" "5062" (.response 100 (sampleRequest "INVITE")),
          .handleSdp "v=0",
          .udpSend "192.0.2.4" "5062" (.response 200 (sampleRequest "INVITE")) ] :=
  C11_first_request_sequence (sampleServerWithCallback "") (sampleRequest "INVITE") _ rfl rfl
    (by decide) (by decide) (by decide)

/-! ## What `Receive` of the client transaction delivers and records -/

/-- `Receive` records the message as `LastMessage` and delivers one event to the
machine, whose name is chosen by the status code among the three server-side
names. -/
theorem Receive_delivers (k : ServerInputs) (tp : Transport) (ct : ClientTransaction)
    (msg : SipMsg) :
    Receive k tp ct msg =
      ClientTransaction.Event tp { ct with LastMessage := some msg }
        (if msg.StatusCode < 200 then k.serverInputUser1xx
         else if msg.StatusCode < 300 then k.serverInputUser2xx
         else k.serverInputUser300Plus) := by
  simp only [Receive]
  split_ifs <;> rfl

/-- C12: `Receive` delivers one event chosen by the status code, but under the
server-side names: for an INVITE client transaction in `Calling` and a message
with a status code below 200 it delivers `serverInputUser1xx`, and whenever that
name is not the client's `clientInput1xx` the state afterwards is not
`Proceeding`. -/
theorem C12_receive_1xx_not_proceeding (k : ServerInputs) (tp : Transport)
    (ct : ClientTransaction) (msg : SipMsg) (h : InviteIn ct "Calling")
    (hc : msg.StatusCode < 200) (hk : k.serverInputUser1xx ≠ clientInput1xx) :
    ∃ ct', Receive k tp ct msg = .ok ct' ∧
      Receive k tp ct msg =
        ClientTransaction.Event tp { ct with LastMessage := some msg } k.serverInputUser1xx ∧
      ct'.state = some (specNext "Calling" k.serverInputUser1xx) ∧
      ct'.state ≠ some "Proceeding" := by
  have h' : InviteIn { ct with LastMessage := some msg } "Calling" := h
  have hE := invite_Event tp _ "Calling" k.serverInputUser1xx h'
  rw [if_neg (by simp), if_neg (by simp)] at hE
  have hR : Receive k tp ct msg =
      ClientTransaction.Event tp { ct with LastMessage := some msg } k.serverInputUser1xx := by
    rw [Receive_delivers, if_pos hc]
  refine ⟨_, hR.trans hE, hR, rfl, ?_⟩
  show some (specNext "Calling" k.serverInputUser1xx) ≠ some "Proceeding"
  have hk' : k.serverInputUser1xx ≠ "client_input_1xx" := hk
  simp only [specNext, clientInputRequest, clientInput1xx, clientInput2xx, clientInput300Plus,
    clientInputTransportErr]
  split_ifs <;> simp_all

theorem C12_receive_1xx_not_proceeding_witness :
    ∃ ct', Receive serverNames netUp (sampleClient "Calling") (sampleResponse 180) = .ok ct' ∧
      Receive serverNames netUp (sampleClient "Calling") (sampleResponse 180) =
        ClientTransaction.Event netUp
          { sampleClient "Calling" with LastMessage := some (sampleResponse 180) }
          "server_input_user_1xx" ∧
      ct'.state = some "Calling" ∧ ct'.state ≠ some "Proceeding" :=
  C12_receive_1xx_not_proceeding serverNames netUp (sampleClient "Calling")
    (sampleResponse 180) rfl (by decide) (by decide)

/-- With the client's own name for the event, a 1xx response received in
`Calling` results in `Proceeding`. -/
theorem Receive_1xx_of_client_name (k : ServerInputs) (tp : Transport)
    (ct : ClientTransaction) (msg : SipMsg) (h : InviteIn ct "Calling")
    (hc : msg.StatusCode < 200) (hk : k.serverInputUser1xx = clientInput1xx) :
    ∃ ct', Receive k tp ct msg = .ok ct' ∧ ct'.state = some "Proceeding" := by
  have h' : InviteIn { ct with LastMessage := some msg } "Calling" := h
  rw [Receive_delivers, if_pos hc, hk, invite_Event tp _ "Calling" _ h', if_neg (by simp),
    if_neg (by simp)]
  exact ⟨_, rfl, rfl⟩

/-! ## `LastMessage` and `msgHistory` across the operations of `client.go` -/

theorem transmit_keeps (tp : Transport) (ct c : ClientTransaction) (b : Bool)
    (h : transmit tp ct = .ok (c, b)) :
    c.LastMessage = ct.LastMessage ∧ c.msgHistory = ct.msgHistory := by
  unfold transmit at h
  split at h
  · cases h; exact ⟨rfl, rfl⟩
  · cases h

theorem duringTransition_keeps : KeepsLog duringTransition := by
  intro c e c' h
  cases h

theorem Resend_keeps (ev : Deliver) (hev : KeepsLog ev) (tp : Transport)
    (ct c : ClientTransaction) (h : Resend ev tp ct = .ok c) :
    c.LastMessage = ct.LastMessage ∧ c.msgHistory = ct.msgHistory := by
  unfold Resend at h
  split at h
  · cases h
  · rename_i c1 failed hc1
    have h1 := transmit_keeps tp ct c1 failed hc1
    split at h
    · have h2 := hev _ _ _ h
      exact ⟨h2.1.trans h1.1, h2.2.trans h1.2⟩
    · cases h; exact h1

theorem actSend_keeps (ev : Deliver) (hev : KeepsLog ev) (tp : Transport)
    (ct c : ClientTransaction) (h : actSend ev tp ct = .ok c) :
    c.LastMessage = ct.LastMessage ∧ c.msgHistory = ct.msgHistory := by
  unfold actSend at h
  split at h
  · cases h
  · rename_i c1 failed hc1
    have h1 := transmit_keeps tp ct c1 failed hc1
    split at h
    · have h2 := hev _ _ _ h
      exact ⟨h2.1.trans h1.1, h2.2.trans h1.2⟩
    · cases h; exact h1

theorem actTransErr_keeps (ev : Deliver) (hev : KeepsLog ev)
    (ct c : ClientTransaction) (h : actTransErr ev ct = .ok c) :
    c.LastMessage = ct.LastMessage ∧ c.msgHistory = ct.msgHistory := by
  unfold actTransErr at h
  have h1 := hev _ _ _ h
  exact h1

theorem actDelete_keeps (ct c : ClientTransaction) (h : actDelete ct = .ok c) :
    c.LastMessage = ct.LastMessage ∧ c.msgHistory = ct.msgHistory := by
  unfold actDelete at h
  split at h
  · cases h
  · split at h
    · cases h
    · cases h; exact ⟨rfl, rfl⟩

theorem actResend_keeps (ev : Deliver) (hev : KeepsLog ev) (tp : Transport)
    (ct c : ClientTransaction) (h : actResend ev tp ct = .ok c) :
    c.LastMessage = ct.LastMessage ∧ c.msgHistory = ct.msgHistory := by
  unfold actResend at h
  simp only at h
  split at h
  · cases h
  · exact Resend_keeps ev hev tp
      { ct with
        trace := ct.trace ++ [.logDebug "Client transaction %p, act_resend"]
        timerATime := wrapInt64 (ct.timerATime * 2)
        timerA := _ } c h

theorem runAction_keeps (tp : Transport) (a : Action) (ct c : ClientTransaction)
    (h : runAction tp a ct = .ok c) :
    c.LastMessage = ct.LastMessage ∧ c.msgHistory = ct.msgHistory := by
  cases a
  · exact actSend_keeps _ duringTransition_keeps tp ct c h
  · cases h; exact ⟨rfl, rfl⟩
  · exact actTransErr_keeps _ duringTransition_keeps ct c h
  · exact actDelete_keeps ct c h
  · exact actResend_keeps _ duringTransition_keeps tp ct c h

theorem runActions_keeps (tp : Transport) (l : List Action) (ct c : ClientTransaction)
    (h : runActions tp l ct = .ok c) :
    c.LastMessage = ct.LastMessage ∧ c.msgHistory = ct.msgHistory := by
  induction l generalizing ct with
  | nil => cases h; exact ⟨rfl, rfl⟩
  | cons a l ih =>
    simp only [runActions] at h
    split at h
    · cases h
    · rename_i c1 hc1
      have h1 := runAction_keeps tp a ct c1 hc1
      have h2 := ih c1 h
      exact ⟨h2.1.trans h1.1, h2.2.trans h1.2⟩

/-- No event delivered to the machine changes `LastMessage` or `msgHistory`,
whatever the machine and its state. -/
theorem Event_keeps (tp : Transport) : KeepsLog (ClientTransaction.Event tp) := by
  intro ct e c h
  unfold ClientTransaction.Event at h
  split at h
  · cases h
  · simp only at h
    split at h
    · cases h
    · rename_i c1 hc1
      have h1 := runActions_keeps tp _ ct c1 hc1
      have h2 := runActions_keeps tp _ _ c h
      exact ⟨h2.1.trans h1.1, h2.2.trans h1.2⟩

theorem StatelessSend_keeps (tp : Transport) (ct c : ClientTransaction) (m : SipMsg)
    (host port : String) (h : StatelessSend tp ct m host port = .ok c) :
    c.LastMessage = ct.LastMessage ∧ c.msgHistory = ct.msgHistory := by
  unfold StatelessSend at h
  split at h
  · cases h
  · rename_i c1 failed hc1
    have h1 := transmit_keeps tp ct c1 failed hc1
    split at h <;> (cases h; exact h1)

theorem Send_keeps (k : ServerInputs) (tp : Transport) (ct c : ClientTransaction) (m : SipMsg)
    (host port : String) (h : Send k tp ct m host port = .ok c) :
    c.LastMessage = ct.LastMessage ∧ c.msgHistory = ct.msgHistory := by
  unfold Send at h
  simp only at h
  split at h
  · cases h
  · rename_i c1 failed hc1
    have h1 := transmit_keeps tp _ c1 failed hc1
    split at h
    · cases h
    · rename_i c2 hc2
      have h3 := Event_keeps tp _ _ _ h
      have h2 : c2.LastMessage = c1.LastMessage ∧ c2.msgHistory = c1.msgHistory := by
        split at hc2
        · exact Event_keeps tp _ _ _ hc2
        · cases hc2; exact ⟨rfl, rfl⟩
      exact ⟨h3.1.trans (h2.1.trans h1.1), h3.2.trans (h2.2.trans h1.2)⟩

/-- The two `Receive` methods of the internal package append the message to the
history. -/
theorem internal_Receive_appends (ct : internal.ClientTransaction)
    (st st' : internal.ServerTransaction) (msg : SipMsg) (h : st.Receive msg = .ok st') :
    (ct.Receive msg).msg_history = ct.msg_history ++ [msg] ∧
      st'.msg_history = st.msg_history ++ [msg] := by
  refine ⟨rfl, ?_⟩
  unfold internal.ServerTransaction.Receive at h
  simp only at h
  split at h
  · cases h; rfl
  · split at h
    · cases h; rfl
    · split at h
      · cases h
      · split at h <;> (cases h; rfl)

/-- C13: `Receive` of `sip/transaction/client.go` does not append the received
message to the history: whenever it returns, `msgHistory` is what it was before
the call, and so is not the old history followed by the message. -/
theorem C13_client_receive_keeps_history (k : ServerInputs) (tp : Transport)
    (ct ct' : ClientTransaction) (msg : SipMsg) (h : Receive k tp ct msg = .ok ct') :
    ct'.msgHistory = ct.msgHistory ∧ ct'.msgHistory ≠ ct.msgHistory ++ [msg] := by
  rw [Receive_delivers] at h
  have h1 := (Event_keeps tp _ _ _ h).2
  have h2 : ct'.msgHistory = ct.msgHistory := h1
  refine ⟨h2, ?_⟩
  rw [h2]
  intro hh
  have := congrArg List.length hh
  simp at this

theorem C13_client_receive_keeps_history_witness :
    ({ sampleClient "Calling" with LastMessage := some (sampleResponse 180) } :
        ClientTransaction).msgHistory = (sampleClient "Calling").msgHistory ∧
      ({ sampleClient "Calling" with LastMessage := some (sampleResponse 180) } :
        ClientTransaction).msgHistory ≠
        (sampleClient "Calling").msgHistory ++ [sampleResponse 180] :=
  C13_client_receive_keeps_history serverNames netUp (sampleClient "Calling")
    { sampleClient "Calling" with LastMessage := some (sampleResponse 180) }
    (sampleResponse 180) (by rfl)

/-! ## The non-INVITE client machine -/

theorem initMachine_default (m : String) (hm : m ≠ methodINVITE) :
    initMachine m = fsm.NewFSM "" defaultEvents [] := by
  simp [initMachine, hm]

/-- The `transitions` map of the non-INVITE machine, as `NewFSM` builds it. -/
theorem default_transitions :
    (fsm.NewFSM "" defaultEvents ([] : List (String × Action))).transitions =
      [ (("client_input_request", ""), "Calling"),
        (("client_input_1xx", "Calling"), "Proceeding"),
        (("client_input_300_plus", "Proceeding"), "Completed"),
        (("client_input_2xx", "Proceeding"), "Terminated") ] := by
  rfl

/-- The non-INVITE machine stores no callback. -/
theorem default_callbacks :
    (fsm.NewFSM "" defaultEvents ([] : List (String × Action))).callbacks = [] := by
  rfl

/-- A machine without callbacks invokes none. -/
theorem Event_no_callbacks {κ : Type} (f : fsm.FSM κ) (h : f.callbacks = []) (e : String) :
    (f.Event e).pre = [] ∧ (f.Event e).post = [] := by
  simp only [fsm.FSM.Event, fsm.FSM.callback, h, List.lookup_nil, Option.toList_none,
    List.append_nil]
  split
  · split_ifs <;> exact ⟨rfl, rfl⟩
  · split_ifs <;> exact ⟨rfl, rfl⟩

/-- The non-INVITE machine after an event: the state the INVITE table gives,
except that a transport error leaves the state as it is. -/
theorem default_Event_fsm (m : String) (hm : m ≠ methodINVITE) (s e : String) :
    ((machineIn m s).Event e).fsm =
      machineIn m (if e = clientInputTransportErr then s else specNext s e) := by
  simp only [machineIn, initMachine_default m hm, fsm.FSM.Event, default_transitions,
    lookup_cons_ite, Prod.mk.injEq, List.lookup_nil, specNext, clientInputRequest,
    clientInput1xx, clientInput2xx, clientInput300Plus, clientInputTransportErr]
  by_cases h1 : e = "client_input_request" ∧ s = ""
  · simp [h1]
  by_cases h2 : e = "client_input_1xx" ∧ s = "Calling"
  · simp [h2]
  by_cases h3 : e = "client_input_300_plus" ∧ s = "Proceeding"
  · simp [h3]
  by_cases h4 : e = "client_input_2xx" ∧ s = "Proceeding"
  · simp [h4]
  simp only [h1, h2, h3, h4, if_false]
  by_cases h5 : e = "client_input_transport_err"
  · simp only [h5, if_true]
    split_ifs <;> rfl
  · simp only [h5, false_and, if_false]
    split_ifs <;> rfl

/-- What `ct.FSM.Event(e)` does to a non-INVITE transaction in state `s`: only
the machine changes. -/
theorem default_Event (tp : Transport) (ct : ClientTransaction) (m s e : String)
    (hm : m ≠ methodINVITE) (h : ct.FSM = some (machineIn m s)) :
    ct.Event tp e = .ok { ct with FSM := some ((machineIn m s).Event e).fsm } := by
  have hc : (machineIn m s).callbacks = [] := by
    simp only [machineIn, initMachine_default m hm]; rfl
  have hp := Event_no_callbacks (machineIn m s) hc e
  simp only [ClientTransaction.Event, h, hp.1, hp.2, runActions]

/-- `Event` on an INVITE transaction whose `Origin` has a Via returns. -/
theorem invite_Event_returns (tp : Transport) (ct : ClientTransaction) (s e : String)
    (o : SipMsg) (h : InviteIn ct s) (ho : ct.Origin = some o) (hv : o.Via ≠ []) :
    ∃ c, ct.Event tp e = .ok c := by
  rw [invite_Event tp ct s e h]
  split_ifs
  · simp only [actDelete, ho]
    cases hV : o.Via with
    | nil => exact absurd hV hv
    | cons v rest => exact ⟨_, rfl⟩
  · exact ⟨_, rfl⟩
  · exact ⟨_, rfl⟩

/-- `Event` on a transaction whose machine was built by `InitFSM` and whose
`Origin` has a Via returns. -/
theorem built_Event_returns (tp : Transport) (ct : ClientTransaction) (m s e : String)
    (o : SipMsg) (h : ct.FSM = some (machineIn m s)) (ho : ct.Origin = some o)
    (hv : o.Via ≠ []) :
    ∃ c, ct.Event tp e = .ok c := by
  by_cases hm : m = methodINVITE
  · subst hm
    exact invite_Event_returns tp ct s e o h ho hv
  · exact ⟨_, default_Event tp ct m s e hm h⟩

/-! ## `LastMessage` -/

/-- C14: for a client transaction whose machine was built by `InitFSM` (any
method, any state `s`) and whose `Origin` has a Via, and for a message of any
status code, `Receive` returns and `GetLastMessage` then returns the message,
whether or not the machine accepts the event; and no other operation of
`client.go` changes `LastMessage`: not `InitFSM`, `SetListeningPoint`,
`SetServerTransaction`, not an event delivered to the machine (with the
callbacks it runs), not `Resend`, `actResend`, `actSend`, `actTransErr`,
`actDelete`, `act300`, `StatelessSend` or `Send`. -/
theorem C14_last_message (k : ServerInputs) (tp : Transport) (ct : ClientTransaction)
    (msg o : SipMsg) (m s : String) (hF : ct.FSM = some (machineIn m s))
    (ho : ct.Origin = some o) (hv : o.Via ≠ []) :
    (∃ ct', Receive k tp ct msg = .ok ct' ∧ GetLastMessage ct' = some msg) ∧
    (∀ x, (InitFSM ct x).LastMessage = ct.LastMessage) ∧
    (∀ lp, (SetListeningPoint ct lp).LastMessage = ct.LastMessage) ∧
    (∀ tx, (SetServerTransaction ct tx).LastMessage = ct.LastMessage) ∧
    (∀ e c, ct.Event tp e = .ok c → c.LastMessage = ct.LastMessage) ∧
    (∀ c, Resend (ClientTransaction.Event tp) tp ct = .ok c →
      c.LastMessage = ct.LastMessage) ∧
    (∀ c, actResend (ClientTransaction.Event tp) tp ct = .ok c →
      c.LastMessage = ct.LastMessage) ∧
    (∀ c, actSend (ClientTransaction.Event tp) tp ct = .ok c →
      c.LastMessage = ct.LastMessage) ∧
    (∀ c, actTransErr (ClientTransaction.Event tp) ct = .ok c →
      c.LastMessage = ct.LastMessage) ∧
    (∀ c, actDelete ct = .ok c → c.LastMessage = ct.LastMessage) ∧
    (act300 ct).LastMessage = ct.LastMessage ∧
    (∀ x host port c, StatelessSend tp ct x host port = .ok c →
      c.LastMessage = ct.LastMessage) ∧
    (∀ x host port c, Send k tp ct x host port = .ok c → c.LastMessage = ct.LastMessage) := by
  refine ⟨?_, fun _ => rfl, fun _ => rfl, fun _ => rfl, ?_, ?_, ?_, ?_, ?_, ?_, rfl, ?_, ?_⟩
  · have hF' : ({ ct with LastMessage := some msg } : ClientTransaction).FSM =
        some (machineIn m s) := hF
    obtain ⟨c, hc⟩ := built_Event_returns tp { ct with LastMessage := some msg } m s
      (if msg.StatusCode < 200 then k.serverInputUser1xx
       else if msg.StatusCode < 300 then k.serverInputUser2xx
       else k.serverInputUser300Plus) o hF' ho hv
    refine ⟨c, by rw [Receive_delivers]; exact hc, ?_⟩
    exact (Event_keeps tp _ _ _ hc).1
  · exact fun e c h => (Event_keeps tp _ _ _ h).1
  · exact fun c h => (Resend_keeps _ (Event_keeps tp) tp ct c h).1
  · exact fun c h => (actResend_keeps _ (Event_keeps tp) tp ct c h).1
  · exact fun c h => (actSend_keeps _ (Event_keeps tp) tp ct c h).1
  · exact fun c h => (actTransErr_keeps _ (Event_keeps tp) ct c h).1
  · exact fun c h => (actDelete_keeps ct c h).1
  · exact fun x host port c h => (StatelessSend_keeps tp ct c x host port h).1
  · exact fun x host port c h => (Send_keeps k tp ct c x host port h).1

theorem C14_last_message_witness :
    ∃ ct', Receive serverNames netUp (sampleClient "Calling") (sampleResponse 486) = .ok ct' ∧
      GetLastMessage ct' = some (sampleResponse 486) :=
  (C14_last_message serverNames netUp (sampleClient "Calling") (sampleResponse 486)
    sampleInvite methodINVITE "Calling" rfl rfl (by decide)).1

/-! ## Timers when the transaction terminates -/

/-- C15, as stated, fails: a transport-error event takes the sample INVITE
transaction from `Proceeding` to `Terminated`, and Timer A and Timer B are still
pending afterwards. -/
theorem C15_timers_still_pending :
    ∃ ct', (sampleClient "Proceeding").Event netDown clientInputTransportErr = .ok ct' ∧
      ct'.state = some "Terminated" ∧
      ct'.timerA = some { delay := T1, event := clientInputTimerA, pending := true } ∧
      ct'.timerB = some { delay := 64 * T1, event := clientInputTimerB, pending := true } :=
  ⟨_, rfl, rfl, rfl, rfl⟩

/-- The 2xx event in `Proceeding` takes the sample INVITE transaction to
`Terminated` and issues the `DeleteTransaction`; Timer A and Timer B are still
pending afterwards. -/
theorem timers_pending_after_delete :
    ∃ ct', (sampleClient "Proceeding").Event netUp clientInput2xx = .ok ct' ∧
      ct'.state = some "Terminated" ∧
      deletions ct'.trace = ["z9hG4bK74bf9"] ∧
      ct'.timerA = some { delay := T1, event := clientInputTimerA, pending := true } ∧
      ct'.timerB = some { delay := 64 * T1, event := clientInputTimerB, pending := true } :=
  ⟨_, rfl, rfl, rfl, rfl, rfl⟩

/-- C15, amended: when an event takes an INVITE client transaction to
`Terminated` (2xx in `Proceeding`, transport error in `Calling`, `Proceeding` or
`Completed`), no timer of the transaction is touched: Timer A, Timer B and
Timer D are exactly what they were before the event, a pending timer still
pending. -/
theorem C15_termination_keeps_timers (tp : Transport) (ct ct' : ClientTransaction)
    (s e : String) (h : InviteIn ct s) (hE : ct.Event tp e = .ok ct')
    (hT : ct'.state = some "Terminated") :
    ct'.timerA = ct.timerA ∧ ct'.timerB = ct.timerB ∧ ct'.timerD = ct.timerD := by
  rw [invite_Event tp ct s e h] at hE
  split_ifs at hE
  · have h1 : ∀ c c' : ClientTransaction, actDelete c = .ok c' →
        c'.timerA = c.timerA ∧ c'.timerB = c.timerB ∧ c'.timerD = c.timerD := by
      intro c c' hc
      unfold actDelete at hc
      split at hc
      · cases hc
      · split at hc
        · cases hc
        · cases hc; exact ⟨rfl, rfl, rfl⟩
    have h2 := h1 _ _ hE
    exact h2
  · cases hE
    have h3 : (some "Completed" : Option String) = some "Terminated" := hT
    exact absurd h3 (by decide)
  · cases hE
    exact ⟨rfl, rfl, rfl⟩

theorem C15_termination_keeps_timers_witness :
    ({ sampleClient "Calling" with
        FSM := some { initMachine methodINVITE with current := "Terminated" } } :
        ClientTransaction).timerA = (sampleClient "Calling").timerA ∧
      ({ sampleClient "Calling" with
        FSM := some { initMachine methodINVITE with current := "Terminated" } } :
        ClientTransaction).timerB = (sampleClient "Calling").timerB ∧
      ({ sampleClient "Calling" with
        FSM := some { initMachine methodINVITE with current := "Terminated" } } :
        ClientTransaction).timerD = (sampleClient "Calling").timerD :=
  C15_termination_keeps_timers netDown (sampleClient "Calling")
    { sampleClient "Calling" with
      FSM := some { initMachine methodINVITE with current := "Terminated" } }
    "Calling" clientInputTransportErr rfl (by rfl) (by rfl)

/-! ## A second `Send` -/

/-- C16, as stated, fails: a second `Send` on the sample transaction in
`Calling` overwrites `Origin`, `Host` and `Port` and transmits the new message;
only the state is left at `Calling`. -/
theorem C16_second_send_overwrites :
    ∃ ct', Send serverNames netUp (sampleClient "Calling") otherInvite "203.0.113.5" "5070"
        = .ok ct' ∧
      ct'.state = some "Calling" ∧
      ct'.Origin = some otherInvite ∧ ct'.Origin ≠ (sampleClient "Calling").Origin ∧
      ct'.Host = "203.0.113.5" ∧ ct'.Port = "5070" ∧
      transmissions ct'.trace =
        [ ("198.51.100.7", "5060", .exported sampleInvite),
          ("203.0.113.5", "5070", .exported otherInvite) ] :=
  ⟨_, rfl, rfl, rfl, by decide, rfl, rfl, rfl⟩

/-- Outside the initial state the request-sent event, and every event that is
not in the table, leaves the state of the INVITE machine as it is. -/
theorem specNext_request_elsewhere (s e : String) (hs : s ≠ "")
    (he : e = clientInputRequest ∨ e ∉ tableEvents) : specNext s e = s := by
  rcases he with rfl | he
  · simp [specNext, hs, clientInputRequest, clientInput1xx, clientInput2xx,
      clientInput300Plus, clientInputTransportErr]
  · exact specNext_of_not_mem s e he

/-- C16, amended: on an INVITE client transaction that has left the initial
state, a further `Send(msg', host', port')` whose transmission succeeds leaves
the state unchanged (the deferred event is rejected, its name being the client's
request-sent name or no event of the table) but is not rejected as a whole: it
stores `msg'`, `host'`, `port'` as `Origin`, `Host`, `Port`, sets the Timer A
interval to `T1`, makes new Timers A and B, and transmits `msg'` once to
`(host', port')`. -/
theorem C16_second_send (k : ServerInputs) (tp : Transport) (ct : ClientTransaction)
    (msg : SipMsg) (host port s : String) (lp : Nat) (h : InviteIn ct s) (hs : s ≠ "")
    (hl : ct.ListeningPoint = some lp) (hok : tp (sendCount ct.trace) = false)
    (hk : k.serverInputRequest = clientInputRequest ∨ k.serverInputRequest ∉ tableEvents) :
    Send k tp ct msg host port = .ok { ct with
      Origin := some msg, Host := host, Port := port, timerATime := T1
      timerA := some { delay := T1, event := clientInputTimerA, pending := true }
      timerB := some { delay := 64 * T1, event := clientInputTimerB, pending := true }
      trace := ct.trace ++ [.send host port (.exported msg)] } ∧
    ct.state = some s := by
  have hE : ∀ (c : ClientTransaction), c.FSM = ct.FSM →
      c.Event tp k.serverInputRequest = .ok c := by
    intro c hc
    have hc' : InviteIn c s := hc.trans h
    rw [invite_Event tp c s _ hc', if_neg, if_neg, specNext_request_elsewhere s _ hs hk,
      set_FSM_self c s hc']
    · rintro ⟨h1, h2⟩
      rcases hk with hk | hk
      · rw [hk] at h1; exact absurd h1 (by decide)
      · exact hk (by rw [h1]; decide)
    · rintro ⟨h1, h2⟩
      rcases hk with hk | hk
      · rw [hk] at h1; exact absurd h1 (by decide)
      · exact hk (by rw [h1]; decide)
  refine ⟨?_, ?_⟩
  · simp only [Send, transmit_after_store tp ct msg host port lp hl, hok, Bool.false_eq_true,
      if_false]
    rw [hE]
    rfl
  · unfold InviteIn at h
    simp [ClientTransaction.state, h, fsm.FSM.Current]

theorem C16_second_send_witness :
    Send serverNames netUp (sampleClient "Calling") otherInvite "203.0.113.5" "5070" =
      .ok { sampleClient "Calling" with
        Origin := some otherInvite, Host := "203.0.113.5", Port := "5070", timerATime := T1
        timerA := some { delay := T1, event := clientInputTimerA, pending := true }
        timerB := some { delay := 64 * T1, event := clientInputTimerB, pending := true }
        trace := (sampleClient "Calling").trace ++
          [.send "203.0.113.5" "5070" (.exported otherInvite)] } ∧
    (sampleClient "Calling").state = some "Calling" :=
  C16_second_send serverNames netUp (sampleClient "Calling") otherInvite "203.0.113.5" "5070"
    "Calling" 0 rfl (by decide) rfl rfl (Or.inr (by decide))

/-! ## Retransmission backoff -/

/-- Inside the range of `int64` nothing wraps. -/
theorem wrapInt64_of_range (x : Int) (h1 : -2 ^ 63 ≤ x) (h2 : x < 2 ^ 63) :
    wrapInt64 x = x := by
  unfold wrapInt64
  omega

/-- One run of `actResend` on an INVITE transaction that has a Timer A, an
`Origin` and a listening point: it returns, the stored interval is the doubled
one (in `int64`), Timer A is reset to it, and the transaction is again such a
transaction. -/
theorem actResend_run (tp : Transport) (ct : ClientTransaction) (s : String) (t : Timer)
    (o : SipMsg) (lp : Nat) (h : InviteIn ct s) (ht : ct.timerA = some t)
    (ho : ct.Origin = some o) (hl : ct.ListeningPoint = some lp) :
    ∃ c s', actResend (ClientTransaction.Event tp) tp ct = .ok c ∧ InviteIn c s' ∧
      c.timerATime = wrapInt64 (ct.timerATime * 2) ∧
      c.timerA = some { t with delay := wrapInt64 (ct.timerATime * 2), pending := true } ∧
      c.Origin = some o ∧ c.ListeningPoint = some lp := by
  simp only [actResend, ht, Resend, transmit, ho, hl]
  cases tp (sendCount (ct.trace ++ [Effect.logDebug "Client transaction %p, act_resend"]))
  · exact ⟨_, s, rfl, h, rfl, rfl, rfl, rfl⟩
  · have hE : ∀ c : ClientTransaction, c.FSM = ct.FSM →
        c.Event tp clientInputTransportErr = .ok { c with
          FSM := some { initMachine methodINVITE with
            current := specNext s clientInputTransportErr } } := by
      intro c hc
      rw [invite_Event tp c s _ (hc.trans h), if_neg (fun hh => absurd hh.1 (by decide)),
        if_neg (fun hh => absurd hh.1 (by decide))]
    simp only [if_true]
    rw [hE]
    · exact ⟨_, _, rfl, rfl, rfl, rfl, rfl, rfl⟩
    · rfl

/-- The interval `2 ^ n * T1` fits a 64-bit signed duration up to `n = 34`. -/
theorem backoff_in_range (n : Nat) (hn : n ≤ 34) :
    -2 ^ 63 ≤ 2 ^ n * T1 ∧ 2 ^ n * T1 < 2 ^ 63 := by
  have h1 : (2 : Int) ^ n ≤ 2 ^ 34 := pow_le_pow_right₀ (by norm_num) hn
  have h2 : (0 : Int) < 2 ^ n := by positivity
  unfold T1
  constructor
  · nlinarith
  · nlinarith

/-- After `n` runs of `actResend` (`n` at most 34) on an INVITE transaction
left by `Send`, the stored interval and the delay of Timer A are `2 ^ n * T1`. -/
theorem resendRuns_interval (tp : Transport) (ct : ClientTransaction) (s ev : String)
    (o : SipMsg) (lp : Nat) (h : InviteIn ct s)
    (ht : ct.timerA = some { delay := T1, event := ev, pending := true })
    (hi : ct.timerATime = T1) (ho : ct.Origin = some o) (hl : ct.ListeningPoint = some lp)
    (n : Nat) (hn : n ≤ 34) :
    ∃ c s', resendRuns tp n ct = .ok c ∧ InviteIn c s' ∧
      c.timerATime = 2 ^ n * T1 ∧
      c.timerA = some { delay := 2 ^ n * T1, event := ev, pending := true } ∧
      c.Origin = some o ∧ c.ListeningPoint = some lp := by
  induction n with
  | zero => exact ⟨ct, s, rfl, h, by simpa using hi, by simpa using ht, ho, hl⟩
  | succ n ih =>
    obtain ⟨c, s', hc, hI, hT, hA, hO, hL⟩ := ih (by omega)
    obtain ⟨c2, s2, h2, hI2, hT2, hA2, hO2, hL2⟩ := actResend_run tp c s' _ o lp hI hA hO hL
    have hr := backoff_in_range (n + 1) hn
    have hw : wrapInt64 (c.timerATime * 2) = 2 ^ (n + 1) * T1 := by
      rw [hT, show (2 : Int) ^ n * T1 * 2 = 2 ^ (n + 1) * T1 by ring]
      exact wrapInt64_of_range _ hr.1 hr.2
    refine ⟨c2, s2, ?_, hI2, ?_, ?_, hO2, hL2⟩
    · simp only [resendRuns, hc]
      exact h2
    · rw [hT2, hw]
    · rw [hA2, hw]

/-- What `Send` leaves of an INVITE transaction in the initial state, whatever
the event names and the outcome of the transmission: the stored request and
destination, the interval `T1`, the two timers, one transmission, and the
machine in some state. -/
theorem Send_from_initial (k : ServerInputs) (tp : Transport) (ct : ClientTransaction)
    (msg : SipMsg) (host port : String) (lp : Nat) (h : InviteIn ct "")
    (hl : ct.ListeningPoint = some lp) :
    ∃ s', Send k tp ct msg host port = .ok { ct with
      Origin := some msg, Host := host, Port := port, timerATime := T1
      timerA := some { delay := T1, event := clientInputTimerA, pending := true }
      timerB := some { delay := 64 * T1, event := clientInputTimerB, pending := true }
      trace := ct.trace ++ [.send host port (.exported msg)]
      FSM := some { initMachine methodINVITE with current := s' } } := by
  have hE : ∀ (s e : String) (c : ClientTransaction), s ≠ "Proceeding" →
      c.FSM = some { initMachine methodINVITE with current := s } →
      c.Event tp e = .ok { c with
        FSM := some { initMachine methodINVITE with current := specNext s e } } := by
    intro s e c hs hc
    rw [invite_Event tp c s e hc, if_neg (fun hh => hs hh.2), if_neg (fun hh => hs hh.2)]
  simp only [Send, transmit_after_store tp ct msg host port lp hl]
  cases tp (sendCount ct.trace)
  · simp only [Bool.false_eq_true, if_false]
    rw [hE "" _ _ (by decide)]
    · exact ⟨_, rfl⟩
    · exact h
  · simp only [if_true]
    rw [hE "" _ _ (by decide)]
    · simp only []
      have hne : specNext "" k.serverInputTransportErr ≠ "Proceeding" := by
        rw [specNext_initial]; split_ifs <;> decide
      rw [hE _ _ _ hne]
      · exact ⟨_, rfl⟩
      · rfl
    · exact h

/-- C17: let `Send` have returned `ct` for an INVITE client transaction in the
initial state: the stored interval is `T1` (500ms) and Timer A is pending with
delay `T1`.  When Timer A goes off, its function delivers `clientInputTimerA`,
which the machine drops: `actResend` is not run, the stored interval is still
`T1` and not `2 * T1`, nothing is transmitted, and Timer A is not re-armed, so
that it never goes off again: there is a firing at 500ms and none at 1500ms. -/
theorem C17_timer_a_fires_once (k : ServerInputs) (tp tp' : Transport)
    (ct0 ct : ClientTransaction) (msg : SipMsg) (host port : String) (lp : Nat)
    (h0 : InviteIn ct0 "") (hl : ct0.ListeningPoint = some lp)
    (hS : Send k tp' ct0 msg host port = .ok ct) :
    ct.timerATime = T1 ∧ T1 = 500 * millisecond ∧
    ct.timerA = some { delay := T1, event := clientInputTimerA, pending := true } ∧
    ∃ ct1, timerAFires tp ct = .ok ct1 ∧
      ct1.timerATime = T1 ∧ ct1.timerATime ≠ 2 * T1 ∧
      ct1.timerA = some { delay := T1, event := clientInputTimerA, pending := false } ∧
      ct1.trace = ct.trace ∧ ct1.state = ct.state ∧
      timerAFires tp ct1 = .ok ct1 := by
  obtain ⟨s', hs'⟩ := Send_from_initial k tp' ct0 msg host port lp h0 hl
  rw [hs'] at hS
  cases hS
  have hE : ∀ c : ClientTransaction,
      c.FSM = some { initMachine methodINVITE with current := s' } →
      c.Event tp clientInputTimerA = .ok c := by
    intro c hc
    rw [invite_Event tp c s' _ hc, if_neg (fun hh => absurd hh.1 (by decide)),
      if_neg (fun hh => absurd hh.1 (by decide)), specNext_of_not_mem s' _ (by decide),
      set_FSM_self c s' hc]
  refine ⟨rfl, by decide, rfl, ?_⟩
  simp only [timerAFires, if_true]
  rw [hE]
  · refine ⟨_, rfl, rfl, ?_, rfl, rfl, rfl, ?_⟩
    · show T1 ≠ 2 * T1
      decide
    · simp only [Bool.false_eq_true, if_false]
  · rfl

theorem C17_timer_a_fires_once_witness :
    (sampleClient "").timerATime = T1 ∧ T1 = 500 * millisecond ∧
    (sampleClient "").timerA =
      some { delay := T1, event := clientInputTimerA, pending := true } ∧
    ∃ ct1, timerAFires netUp (sampleClient "") = .ok ct1 ∧
      ct1.timerATime = T1 ∧ ct1.timerATime ≠ 2 * T1 ∧
      ct1.timerA = some { delay := T1, event := clientInputTimerA, pending := false } ∧
      ct1.trace = (sampleClient "").trace ∧ ct1.state = (sampleClient "").state ∧
      timerAFires netUp ct1 = .ok ct1 :=
  C17_timer_a_fires_once serverNames netUp netUp freshClient (sampleClient "")
    sampleInvite "198.51.100.7" "5060" 0 rfl rfl (by rfl)

/-! ## The two client machines compared -/

/-- The INVITE machine after an event, in terms of `machineIn`. -/
theorem invite_machine_Event_fsm (s e : String) :
    ((machineIn methodINVITE s).Event e).fsm = machineIn methodINVITE (specNext s e) :=
  invite_Event_fsm s e

/-- C18: the machine `InitFSM` builds for a method other than INVITE has the
same states as the INVITE machine (the five client states); in every state `s`
it goes where the INVITE machine goes on request-sent, 1xx, 2xx and 300+; a
transport-error or timer event leaves its state as it is; it stores no
callback, so an event delivered to a transaction with this machine changes the
machine and nothing else (no timer, no transmission, no deletion). -/
theorem C18_non_invite_machine (m : String) (hm : m ≠ methodINVITE) :
    (∀ x, x ∈ fsm.allStates defaultEvents ↔ x ∈ clientStates) ∧
    (∀ x, x ∈ fsm.allStates inviteEvents ↔ x ∈ clientStates) ∧
    (∀ s e, e ∈ [clientInputRequest, clientInput1xx, clientInput2xx, clientInput300Plus] →
      ((machineIn m s).Event e).fsm.Current =
        ((machineIn methodINVITE s).Event e).fsm.Current) ∧
    (∀ s e, e ∈ [clientInputTransportErr, clientInputTimerA, clientInputTimerB,
        clientInputTimerD] →
      ((machineIn m s).Event e).fsm.Current = s) ∧
    (initMachine m).callbacks = [] ∧
    (∀ (tp : Transport) (ct : ClientTransaction) (s e : String),
      ct.FSM = some (machineIn m s) →
      ct.Event tp e = .ok { ct with FSM := some ((machineIn m s).Event e).fsm }) := by
  refine ⟨?_, ?_, ?_, ?_, ?_, ?_⟩
  · intro x
    have h : fsm.allStates defaultEvents =
        ["", "Calling", "Calling", "Proceeding", "Proceeding", "Completed", "Proceeding",
          "Terminated"] := by rfl
    rw [h]
    simp only [clientStates, List.mem_cons, List.mem_singleton, List.not_mem_nil, or_false]
    tauto
  · intro x
    have h : fsm.allStates inviteEvents =
        ["", "Calling", "Calling", "Proceeding", "Proceeding", "Completed", "Proceeding",
          "Terminated", "Calling", "Terminated", "Proceeding", "Terminated", "Completed",
          "Terminated"] := by rfl
    rw [h]
    simp only [clientStates, List.mem_cons, List.mem_singleton, List.not_mem_nil, or_false]
    tauto
  · intro s e he
    rw [default_Event_fsm m hm, invite_machine_Event_fsm]
    have hne : e ≠ clientInputTransportErr := by
      simp only [List.mem_cons, List.mem_singleton, List.not_mem_nil, or_false] at he
      rcases he with rfl | rfl | rfl | rfl <;> decide
    rw [if_neg hne]
    rfl
  · intro s e he
    rw [default_Event_fsm m hm]
    simp only [List.mem_cons, List.mem_singleton, List.not_mem_nil, or_false] at he
    rcases he with rfl | rfl | rfl | rfl
    · rfl
    · rw [if_neg (by decide), specNext_of_not_mem s _ (by decide)]; rfl
    · rw [if_neg (by decide), specNext_of_not_mem s _ (by decide)]; rfl
    · rw [if_neg (by decide), specNext_of_not_mem s _ (by decide)]; rfl
  · rw [initMachine_default m hm]; rfl
  · intro tp ct s e h
    exact default_Event tp ct m s e hm h

theorem C18_non_invite_machine_witness : (initMachine "REGISTER").callbacks = [] :=
  (C18_non_invite_machine "REGISTER" (by decide)).2.2.2.2.1

/-! ## Retransmitted request on a server transaction -/

/-- C19: for a server transaction whose state is not the initial state `""` and
a message whose method is not ACK, CANCEL or BYE, `Receive` appends the message
to the history and does nothing else: the trace of calls on the collaborators
and the machine are unchanged. -/
theorem C19_retransmitted_request (st : internal.ServerTransaction) (msg : SipMsg)
    (f : fsm.FSM String) (hf : st.FSM = some f) (hs : f.Current ≠ "")
    (h1 : msg.Method ≠ "ACK") (h2 : msg.Method ≠ "CANCEL") (h3 : msg.Method ≠ "BYE") :
    st.Receive msg = .ok { st with msg_history := st.msg_history ++ [msg] } := by
  simp [internal.ServerTransaction.Receive, h1, h2, h3, hf, hs]

theorem C19_retransmitted_request_witness :
    (sampleServer "Proceeding").Receive (sampleRequest "INVITE") =
      .ok { sampleServer "Proceeding" with
        msg_history := (sampleServer "Proceeding").msg_history ++ [sampleRequest "INVITE"] } :=
  C19_retransmitted_request (sampleServer "Proceeding") (sampleRequest "INVITE") _ rfl
    (by decide) (by decide) (by decide) (by decide)

/-! ## Reachable states -/

/-- The table never leaves the five client states. -/
theorem specNext_mem (s e : String) (hs : s ∈ clientStates) : specNext s e ∈ clientStates := by
  unfold specNext
  split_ifs
  · decide
  · decide
  · decide
  · decide
  · decide
  · exact hs

/-- One event on a machine built by `InitFSM`: the machine is the same machine
in a state that is the old one or the one the table gives. -/
theorem built_Event_fsm (m s e : String) :
    ∃ s', ((machineIn m s).Event e).fsm = machineIn m s' ∧ (s' = s ∨ s' = specNext s e) := by
  by_cases hm : m = methodINVITE
  · subst hm
    exact ⟨_, invite_machine_Event_fsm s e, Or.inr rfl⟩
  · refine ⟨_, default_Event_fsm m hm s e, ?_⟩
    split_ifs
    · exact Or.inl rfl
    · exact Or.inr rfl

/-- Any sequence of events keeps a machine built by `InitFSM` within the five
client states. -/
theorem run_mem (m : String) (events : List String) (s : String) (hs : s ∈ clientStates) :
    ((machineIn m s).run events).Current ∈ clientStates := by
  induction events generalizing s with
  | nil => exact hs
  | cons e rest ih =>
    obtain ⟨s', h1, h2⟩ := built_Event_fsm m s e
    have hs' : s' ∈ clientStates := by
      rcases h2 with rfl | rfl
      · exact hs
      · exact specNext_mem s e hs
    have := ih s' hs'
    simpa [fsm.FSM.run, h1] using this

/-- C20: for the machine `InitFSM` builds for any method (INVITE or not), the
state after any finite sequence of events, of known or unknown names, delivered
from the initial state is one of `""`, `Calling`, `Proceeding`, `Completed`,
`Terminated`; and in `Terminated` no event changes the state. -/
theorem C20_closed_and_absorbing (m : String) (events : List String) (e : String) :
    (initMachine m).Current = "" ∧
    ((initMachine m).run events).Current ∈ clientStates ∧
    ((machineIn m "Terminated").Event e).fsm.Current = "Terminated" := by
  refine ⟨?_, ?_, ?_⟩
  · unfold initMachine
    split_ifs <;> rfl
  · have h0 : initMachine m = machineIn m "" := by
      unfold machineIn initMachine
      split_ifs <;> rfl
    rw [h0]
    exact run_mem m events "" (by decide)
  · obtain ⟨s', h1, h2⟩ := built_Event_fsm m "Terminated" e
    rw [h1]
    rcases h2 with rfl | rfl
    · rfl
    · show specNext "Terminated" e = "Terminated"
      simp [specNext]

end Kalbi
